import Mathlib

/-
Verification of the document-processing pipeline: a shallow embedding of
the classifier agent's format detection (agents/classifier_agent.py), the
JSON agent's structure detection and normalization (agents/json_agent.py),
and the keyword fallback intent classifier (services/llm_service.py).

Modelling conventions:
* Python/JSON values are the inductive `JValue`; Python floats are `ℚ`
  (finite decimal arithmetic; non-finite floats are outside the model).
* Python `bool` is a subclass of `int`, so boolean values pass
  `isinstance(x, (int, float))`; the model mirrors this in `isNumber`.
* Python dicts are insertion-ordered association lists with unique keys.
* Code that can raise is embedded in `Except PyErr`; text is `List Char`.
* Filesystem access (`os.path.isfile`, `open`) is an explicit oracle
  parameter; logging and the shared-memory context store are effect-free
  for the returned values (update_context catches all exceptions and the
  pipeline ignores its boolean result), so they are omitted.
-/

inductive JValue : Type where
  | null : JValue
  | bool : Bool → JValue
  | int : Int → JValue
  | float : ℚ → JValue
  | str : String → JValue
  | arr : List JValue → JValue
  | obj : List (String × JValue) → JValue

/-- Python exceptions relevant to the embedded code. -/
inductive PyErr : Type where
  | valueError : String → PyErr
  | typeError : String → PyErr
  | attributeError : String → PyErr
  | fileNotFoundError : String → PyErr
  | jsonDecodeError : String → PyErr
  deriving DecidableEq

/-- Python str(e) on an exception: its message. -/
def pyErrMsg : PyErr → String
  | .valueError m => m
  | .typeError m => m
  | .attributeError m => m
  | .fileNotFoundError m => m
  | .jsonDecodeError m => m

/-! Dict operations (Python dicts: insertion order, unique keys). -/

def dlookup (d : List (String × JValue)) (k : String) : Option JValue :=
  match d with
  | [] => none
  | (k₂, v) :: rest => if k₂ = k then some v else dlookup rest k

/-- Python dict.get(k, default). -/
def dgetD (d : List (String × JValue)) (k : String) (dflt : JValue) : JValue :=
  (dlookup d k).getD dflt

/-- Python `k in d`. -/
def hasKey (d : List (String × JValue)) (k : String) : Bool :=
  (dlookup d k).isSome

/-- Python `d[k] = v`: update in place if the key exists, else append. -/
def dset (d : List (String × JValue)) (k : String) (v : JValue) :
    List (String × JValue) :=
  match d with
  | [] => [(k, v)]
  | (k₂, v₂) :: rest =>
      if k₂ = k then (k, v) :: rest else (k₂, v₂) :: dset rest k v

def dkeys (d : List (String × JValue)) : List String := d.map Prod.fst

/-! Python type tests and coercions. -/

/-- isinstance(v, str). -/
def isStr : JValue → Bool
  | .str _ => true
  | _ => false

/-- isinstance(v, list). -/
def isList : JValue → Bool
  | .arr _ => true
  | _ => false

/-- isinstance(v, dict). -/
def isDict : JValue → Bool
  | .obj _ => true
  | _ => false

/-- isinstance(v, (int, float)); Python bool is a subclass of int, so
booleans pass this check. -/
def isNumber : JValue → Bool
  | .int _ => true
  | .float _ => true
  | .bool _ => true
  | _ => false

/-- Python truthiness. -/
def pyTruthy : JValue → Bool
  | .null => false
  | .bool b => b
  | .int n => n != 0
  | .float q => decide (q ≠ 0)
  | .str s => s ≠ ""
  | .arr xs => ¬ xs.isEmpty
  | .obj d => ¬ d.isEmpty

/-- Python `a.get(k, default)`: only dicts carry .get. -/
def pyGet (v : JValue) (k : String) (dflt : JValue) : Except PyErr JValue :=
  match v with
  | .obj d => .ok (dgetD d k dflt)
  | _ => .error (.attributeError "object has no attribute get")

def isPyWs (c : Char) : Bool :=
  c = ' ' || c = '\t' || c = '\n' || c = '\r' || c = '\x0b' || c = '\x0c'

/-- Python str.strip(). -/
def pyStrip (s : List Char) : List Char :=
  ((s.dropWhile isPyWs).reverse.dropWhile isPyWs).reverse

def lowerL (s : List Char) : List Char := s.map Char.toLower

def isDigitC (c : Char) : Bool := '0' ≤ c && c ≤ '9'

def digitVal (c : Char) : Nat := c.toNat - '0'.toNat

def digitsToNat (ds : List Char) : Nat :=
  ds.foldl (fun a c => a * 10 + digitVal c) 0

/-! Rational arithmetic via `mkRat`, so that all computations reduce in
the kernel (the core `Rat.add`/`Rat.mul` are irreducible); the agreement
lemmas with ℚ's ring operations come right after. -/

def intQ (n : Int) : ℚ := mkRat n 1

def natQ (n : Nat) : ℚ := mkRat n 1

def qAdd (a b : ℚ) : ℚ :=
  mkRat (a.num * (b.den : Int) + b.num * (a.den : Int)) (a.den * b.den)

def qMul (a b : ℚ) : ℚ := mkRat (a.num * b.num) (a.den * b.den)

def qDiv (a b : ℚ) : ℚ :=
  if 0 ≤ b.num then mkRat (a.num * (b.den : Int)) (a.den * b.num.natAbs)
  else mkRat (-(a.num * (b.den : Int))) (a.den * b.num.natAbs)

/-- Power of ten as a rational, for decimal scaling. -/
def pow10 (k : Nat) : ℚ := natQ (Nat.pow 10 k)

/-- Ten to an integer power. -/
def zpow10 (e : Int) : ℚ :=
  if 0 ≤ e then pow10 e.toNat else mkRat 1 (Nat.pow 10 (-e).toNat)

/-- Truncation toward zero, as Python int() applied to a float. -/
def ratTrunc (q : ℚ) : Int := if 0 ≤ q then q.floor else -((-q).floor)

def parseIntDigits (s : List Char) : Option Nat :=
  if s ≠ [] ∧ s.all isDigitC then some (digitsToNat s) else none

/-- Python int() applied to a string: optional surrounding whitespace,
optional sign, decimal digits. -/
def parseIntStr (s : List Char) : Option Int :=
  match pyStrip s with
  | '-' :: ds => (parseIntDigits ds).map (fun n => -(n : Int))
  | '+' :: ds => (parseIntDigits ds).map (fun n => (n : Int))
  | ds => (parseIntDigits ds).map (fun n => (n : Int))

/-- Python float() applied to a string: optional sign, digits with an
optional fractional part and decimal exponent (non-finite float literals
are outside the model). -/
def parseFloatCore (s : List Char) : Option ℚ :=
  let ip := s.takeWhile isDigitC
  let s₂ := s.dropWhile isDigitC
  let fracPart : Option (List Char × List Char) :=
    match s₂ with
    | '.' :: r => some (r.takeWhile isDigitC, r.dropWhile isDigitC)
    | _ => some ([], s₂)
  match fracPart with
  | none => none
  | some (fp, s₃) =>
    if ip = [] ∧ fp = [] then none
    else
      let mant : ℚ := qAdd (natQ (digitsToNat ip))
        (qDiv (natQ (digitsToNat fp)) (pow10 fp.length))
      match s₃ with
      | [] => some mant
      | c :: r =>
        if c = 'e' ∨ c = 'E' then
          let signExp : Option (Int × List Char) :=
            match r with
            | '+' :: rr => some (1, rr)
            | '-' :: rr => some (-1, rr)
            | _ => some (1, r)
          match signExp with
          | none => none
          | some (sg, rr) =>
            match parseIntDigits rr with
            | some e => some (qMul mant (zpow10 (sg * (e : Int))))
            | none => none
        else none

def parseFloatStr (s : List Char) : Option ℚ :=
  match pyStrip s with
  | '-' :: r => (parseFloatCore r).map (fun q => -q)
  | '+' :: r => parseFloatCore r
  | r => parseFloatCore r

/-- Python float(v). -/
def pyFloat : JValue → Except PyErr ℚ
  | .bool b => .ok (if b then 1 else 0)
  | .int n => .ok (intQ n)
  | .float q => .ok q
  | .str s =>
      match parseFloatStr s.toList with
      | some q => .ok q
      | none => .error (.valueError ("could not convert string to float: " ++ s))
  | _ => .error (.typeError "float argument must be a string or a real number")

/-- Python int(v). -/
def pyInt : JValue → Except PyErr Int
  | .bool b => .ok (if b then 1 else 0)
  | .int n => .ok n
  | .float q => .ok (ratTrunc q)
  | .str s =>
      match parseIntStr s.toList with
      | some n => .ok n
      | none => .error (.valueError ("invalid literal for int with base 10: " ++ s))
  | _ => .error (.typeError "int argument must be a string or a number")

/-- Comma-and-space separated concatenation, as in Python container repr. -/
def joinComma : List (List Char) → List Char
  | [] => []
  | [x] => x
  | x :: rest => x ++ ',' :: ' ' :: joinComma rest

/-- Python str(float q): exact decimal rendering when the denominator
divides a power of ten (every float arising in the embedded code does);
otherwise a fraction rendering stands in. -/
def floatRepr (q : ℚ) : List Char :=
  if q.den = 1 then (toString q.num).toList ++ ".0".toList
  else
    match (List.range 18).find? (fun k => ((qMul q (pow10 k)).den = 1)) with
    | some k =>
        let scaled : Int := (qMul q (pow10 k)).num
        let sign : List Char := if scaled < 0 then ['-'] else []
        let digits := (toString scaled.natAbs).toList
        let padded :=
          if digits.length ≤ k then
            List.replicate (k + 1 - digits.length) '0' ++ digits
          else digits
        sign ++ (padded.take (padded.length - k)) ++
          '.' :: (padded.drop (padded.length - k))
    | none => (toString q.num).toList ++ '/' :: (toString q.den).toList

mutual

/-- Python repr of a parsed-JSON value, as produced by str() on the result
of json.loads: None/True/False, numbers, quoted strings, bracketed lists
and brace-delimited dicts.  Only its length is consumed by the format
detector; string quoting uses repr's single quotes. -/
def pyRepr : JValue → List Char
  | .null => "None".toList
  | .bool b => if b then "True".toList else "False".toList
  | .int n => (toString n).toList
  | .float q => floatRepr q
  | .str s => '\'' :: s.toList ++ ['\'']
  | .arr xs => '[' :: joinComma (reprList xs) ++ [']']
  | .obj d => '\x7b' :: joinComma (reprEntries d) ++ ['\x7d']

def reprList : List JValue → List (List Char)
  | [] => []
  | v :: rest => pyRepr v :: reprList rest

def reprEntries : List (String × JValue) → List (List Char)
  | [] => []
  | (k, v) :: rest =>
      ('\'' :: k.toList ++ '\'' :: ':' :: ' ' :: pyRepr v) :: reprEntries rest

end

/-- Python str(v). -/
def pyStr : JValue → String
  | .str s => s
  | .null => "None"
  | .bool b => if b then "True" else "False"
  | .int n => toString n
  | .float q => String.mk (floatRepr q)
  | .arr xs => String.mk (pyRepr (.arr xs))
  | .obj d => String.mk (pyRepr (.obj d))

/-! JSON parsing, modelling Python json.loads (strict JSON: the
non-finite float literals NaN/Infinity are outside the model). -/

def isJsonWs (c : Char) : Bool :=
  c = ' ' || c = '\t' || c = '\n' || c = '\r'

def skipWs (s : List Char) : List Char := s.dropWhile isJsonWs

def hexVal (c : Char) : Option Nat :=
  if '0' ≤ c ∧ c ≤ '9' then some (c.toNat - '0'.toNat)
  else if 'a' ≤ c ∧ c ≤ 'f' then some (c.toNat - 'a'.toNat + 10)
  else if 'A' ≤ c ∧ c ≤ 'F' then some (c.toNat - 'A'.toNat + 10)
  else none

/-- JSON string body after the opening quote: plain characters, the
standard escapes, and \uXXXX; raw control characters are rejected. -/
def parseStringBody : Nat → List Char → List Char → Option (String × List Char)
  | 0, _, _ => none
  | _ + 1, [], _ => none
  | fuel + 1, c :: rest, acc =>
    if c = '"' then some (String.mk acc.reverse, rest)
    else if c = '\\' then
      match rest with
      | [] => none
      | e :: rest₂ =>
        if e = '"' then parseStringBody fuel rest₂ ('"' :: acc)
        else if e = '\\' then parseStringBody fuel rest₂ ('\\' :: acc)
        else if e = '/' then parseStringBody fuel rest₂ ('/' :: acc)
        else if e = 'b' then parseStringBody fuel rest₂ ('\x08' :: acc)
        else if e = 'f' then parseStringBody fuel rest₂ ('\x0c' :: acc)
        else if e = 'n' then parseStringBody fuel rest₂ ('\n' :: acc)
        else if e = 'r' then parseStringBody fuel rest₂ ('\r' :: acc)
        else if e = 't' then parseStringBody fuel rest₂ ('\t' :: acc)
        else if e = 'u' then
          match rest₂ with
          | h₁ :: h₂ :: h₃ :: h₄ :: rest₃ =>
            match hexVal h₁, hexVal h₂, hexVal h₃, hexVal h₄ with
            | some a, some b, some cc, some d =>
              let n := ((a * 16 + b) * 16 + cc) * 16 + d
              parseStringBody fuel rest₃ (Char.ofNat n :: acc)
            | _, _, _, _ => none
          | _ => none
        else none
    else if c.toNat < 32 then none
    else parseStringBody fuel rest (c :: acc)

/-- JSON number literal: sign, integer part without spurious leading
zeros, optional fraction and exponent.  Literals without fraction or
exponent parse as Python ints, the rest as floats. -/
def parseNumber (s : List Char) : Option (JValue × List Char) :=
  let signAndRest : Bool × List Char :=
    match s with
    | '-' :: r => (true, r)
    | _ => (false, s)
  let neg := signAndRest.1
  let s₁ := signAndRest.2
  let ds := s₁.takeWhile isDigitC
  let s₂ := s₁.dropWhile isDigitC
  if ds = [] then none
  else if 1 < ds.length ∧ ds.headD '0' = '0' then none
  else
    let ip : Nat := digitsToNat ds
    let fracRes : Option (List Char × List Char) :=
      match s₂ with
      | '.' :: r =>
        let fds := r.takeWhile isDigitC
        if fds = [] then none else some (fds, r.dropWhile isDigitC)
      | _ => some ([], s₂)
    match fracRes with
    | none => none
    | some (fds, s₃) =>
      let expRes : Option (Option Int × List Char) :=
        match s₃ with
        | c :: r =>
          if c = 'e' ∨ c = 'E' then
            let signExp : Int × List Char :=
              match r with
              | '+' :: rr => (1, rr)
              | '-' :: rr => (-1, rr)
              | _ => (1, r)
            let eds := signExp.2.takeWhile isDigitC
            if eds = [] then none
            else some (some (signExp.1 * (digitsToNat eds : Int)),
                       signExp.2.dropWhile isDigitC)
          else some (none, s₃)
        | [] => some (none, s₃)
      match expRes with
      | none => none
      | some (oexp, s₄) =>
        if fds = [] ∧ oexp = none then
          some (.int (if neg then -(ip : Int) else (ip : Int)), s₄)
        else
          let mant : ℚ := qAdd (natQ ip)
            (qDiv (natQ (digitsToNat fds)) (pow10 fds.length))
          let signed : ℚ := if neg then -mant else mant
          some (.float (qMul signed (zpow10 (oexp.getD 0))), s₄)

mutual

def parseValue : Nat → List Char → Option (JValue × List Char)
  | 0, _ => none
  | fuel + 1, s =>
    match skipWs s with
    | 'n' :: 'u' :: 'l' :: 'l' :: rest => some (.null, rest)
    | 't' :: 'r' :: 'u' :: 'e' :: rest => some (.bool true, rest)
    | 'f' :: 'a' :: 'l' :: 's' :: 'e' :: rest => some (.bool false, rest)
    | '"' :: rest =>
      match parseStringBody (rest.length + 1) rest [] with
      | some (str, rest₂) => some (.str str, rest₂)
      | none => none
    | '\x7b' :: rest =>
      match skipWs rest with
      | '\x7d' :: rest₂ => some (.obj [], rest₂)
      | s₂ => parseObjMembers fuel s₂ []
    | '[' :: rest =>
      match skipWs rest with
      | ']' :: rest₂ => some (.arr [], rest₂)
      | s₂ => parseArrElems fuel s₂ []
    | c :: rest =>
      if c = '-' ∨ isDigitC c then parseNumber (c :: rest) else none
    | [] => none

def parseArrElems : Nat → List Char → List JValue → Option (JValue × List Char)
  | 0, _, _ => none
  | fuel + 1, s, acc =>
    match parseValue fuel s with
    | none => none
    | some (v, rest) =>
      match skipWs rest with
      | ',' :: rest₂ => parseArrElems fuel (skipWs rest₂) (v :: acc)
      | ']' :: rest₂ => some (.arr (v :: acc).reverse, rest₂)
      | _ => none

def parseObjMembers : Nat → List Char → List (String × JValue) →
    Option (JValue × List Char)
  | 0, _, _ => none
  | fuel + 1, s, acc =>
    match s with
    | '"' :: rest =>
      match parseStringBody (rest.length + 1) rest [] with
      | none => none
      | some (k, rest₂) =>
        match skipWs rest₂ with
        | ':' :: rest₃ =>
          match parseValue fuel (skipWs rest₃) with
          | none => none
          | some (v, rest₄) =>
            /- Python dicts keep the first position of a duplicate key and
            overwrite its value. -/
            let acc₂ := dset acc k v
            match skipWs rest₄ with
            | ',' :: rest₅ => parseObjMembers fuel (skipWs rest₅) acc₂
            | '\x7d' :: rest₅ => some (.obj acc₂, rest₅)
            | _ => none
        | _ => none
    | _ => none

end

/-- json.loads: parse one JSON value surrounded only by whitespace. -/
def jparse (s : List Char) : Option JValue :=
  match parseValue (s.length + 1) s with
  | some (v, rest) => if skipWs rest = [] then some v else none
  | none => none

/-- Numeric projection used to state facts about float-valued fields. -/
def asFloat : JValue → Option ℚ
  | .float q => some q
  | _ => none

/-! Format detection (ClassifierAgent.detect_format). -/

def containsSub (hay needle : List Char) : Bool := decide (needle <:+: hay)

def startsWith (s pre : List Char) : Bool := pre.isPrefixOf s

def endsWith (s suf : List Char) : Bool := suf.isSuffixOf s

def eqL (a b : List Char) : Bool := decide (a = b)

def isB64Char (c : Char) : Bool :=
  ('A' ≤ c && c ≤ 'Z') || ('a' ≤ c && c ≤ 'z') || isDigitC c ||
    c = '+' || c = '/'

def b64Val (c : Char) : Nat :=
  if 'A' ≤ c ∧ c ≤ 'Z' then c.toNat - 65
  else if 'a' ≤ c ∧ c ≤ 'z' then c.toNat - 97 + 26
  else if isDigitC c then c.toNat - 48 + 52
  else if c = '+' then 62
  else 63

/-- Base64 groups of four symbols to bytes; padding may close only the
final group. -/
def b64DecodeGroups : List Char → Option (List Nat)
  | [] => some []
  | a :: b :: c :: d :: rest =>
    if ¬ (isB64Char a ∧ isB64Char b) then none
    else if c = '=' ∧ d = '=' then
      if rest = [] then some [b64Val a * 4 + b64Val b / 16] else none
    else if isB64Char c ∧ d = '=' then
      if rest = [] then
        some [b64Val a * 4 + b64Val b / 16,
              (b64Val b % 16) * 16 + b64Val c / 4]
      else none
    else if isB64Char c ∧ isB64Char d then
      (b64DecodeGroups rest).map (fun bs =>
        (b64Val a * 4 + b64Val b / 16) ::
        ((b64Val b % 16) * 16 + b64Val c / 4) ::
        ((b64Val c % 4) * 64 + b64Val d) :: bs)
    else none
  | _ => none

/-- Python base64.b64decode with validate=False: characters outside the
alphabet are discarded, then the length must be a multiple of four. -/
def b64Decode (s : List Char) : Option (List Nat) :=
  let cleaned := s.filter (fun c => isB64Char c || c = '=')
  if cleaned.length % 4 = 0 then b64DecodeGroups cleaned else none

/-- detect_format method 2 for file uploads: pad the input, decode the
first 100 characters, and look for the %PDF magic bytes. -/
def b64PdfCheck (input : List Char) : Bool :=
  let padded := input ++ List.replicate (4 - input.length % 4) '='
  match b64Decode (padded.take 100) with
  | some bytes => [37, 80, 68, 70].isPrefixOf bytes
  | none => false

def fileUploadS : List Char := "file_upload".toList
def apiCallS : List Char := "api_call".toList
def jsonInputS : List Char := "json_input".toList
def emailProcessingS : List Char := "email_processing".toList
def emailInputS : List Char := "email_input".toList
def jvberiS : List Char := "JVBERi".toList
def extPdfS : List Char := ".pdf".toList
def extJsonS : List Char := ".json".toList
def extEmlS : List Char := ".eml".toList
def extTxtS : List Char := ".txt".toList
def extEmailS : List Char := ".email".toList
def extMsgS : List Char := ".msg".toList
def subEmailS : List Char := "email".toList
def subJsonS : List Char := "json".toList
def subApiS : List Char := "api".toList
def braceS : List Char := ['\x7b']
def brackS : List Char := ['[']

def pdfS : String := "PDF"
def jsonS : String := "JSON"
def emailS : String := "Email"

def emailIndicators : List (List Char) :=
  [("From:" : String).toList, ("To:" : String).toList,
   ("Subject:" : String).toList, ("Date:" : String).toList,
   ("Message-ID:" : String).toList, ("Content-Type:" : String).toList,
   ("Return-Path:" : String).toList, ("Received:" : String).toList,
   ("Reply-To:" : String).toList, ("X-" : String).toList,
   ("@" : String).toList]

def hasEmailIndicator (s : List Char) : Bool :=
  emailIndicators.any (fun ind => containsSub s ind)

/-- os.path.splitext extension, lower-cased: the part from the last dot of
the basename, where a leading dot does not begin an extension. -/
def extOfLower (path : List Char) : List Char :=
  let base := (path.reverse.takeWhile (fun c => ¬ (c = '/'))).reverse
  let lead := base.takeWhile (fun c => c = '.')
  let rest := base.drop lead.length
  let revRest := rest.reverse
  let revTail := revRest.takeWhile (fun c => ¬ (c = '.'))
  if revTail.length = revRest.length then []
  else lowerL ('.' :: revTail.reverse)

/-- detect_format's JSON probe inside the api/json source-hint branch:
stripped content starting with a brace or bracket that parses. -/
def apiJsonStructureCheck (input : List Char) : Bool :=
  let st := pyStrip input
  (startsWith st braceS || startsWith st brackS) && (jparse st).isSome

/-- Priority-4 JSON content analysis: non-empty stripped text starting
with a brace or bracket, parsing to a dict or list whose Python str form
is longer than 10 characters. -/
def p4JsonCheck (input : List Char) : Bool :=
  let st := pyStrip input
  decide (0 < st.length) && (startsWith st braceS || startsWith st brackS) &&
    (match jparse st with
     | some p => (isDict p || isList p) && decide (10 < (pyRepr p).length)
     | none => false)

/-- Priority-4 email content analysis: an email-header indicator in text
that does not look like JSON. -/
def p4EmailCheck (input : List Char) : Bool :=
  let st := pyStrip input
  decide (0 < st.length) && hasEmailIndicator st &&
    !(startsWith st braceS || startsWith st brackS)

/-- ClassifierAgent.detect_format.  The input is text (str); `isfile` is
the filesystem oracle behind os.path.isfile.  The body never raises, so
the surrounding try/except never fires. -/
def detectFormat (isfile : List Char → Bool) (input source : List Char) :
    String :=
  -- Priority 1: content-based detection for file uploads
  if eqL source fileUploadS && decide (20 < input.length) &&
      startsWith input jvberiS then pdfS
  else if eqL source fileUploadS && decide (20 < input.length) &&
      b64PdfCheck input then pdfS
  else if eqL source fileUploadS && (jparse input).isSome then jsonS
  -- Priority 2: file extension of the source hint
  else if endsWith (lowerL source) extPdfS then pdfS
  else if endsWith (lowerL source) extJsonS then jsonS
  else if endsWith (lowerL source) extEmlS || endsWith (lowerL source) extTxtS
      || endsWith (lowerL source) extEmailS then emailS
  -- Priority 2: source type hints
  else if containsSub (lowerL source) subEmailS then emailS
  else if (containsSub (lowerL source) subJsonS ||
      containsSub (lowerL source) subApiS) && apiJsonStructureCheck input then
    jsonS
  -- Priority 3: input as a path to an existing file
  else if isfile input && eqL (extOfLower input) extPdfS then pdfS
  else if isfile input && eqL (extOfLower input) extJsonS then jsonS
  else if isfile input && (eqL (extOfLower input) extEmlS ||
      eqL (extOfLower input) extMsgS) then emailS
  -- Priority 4: content analysis
  else if p4JsonCheck input then jsonS
  else if p4EmailCheck input then emailS
  -- Priority 5: smart defaults based on the source
  else if eqL source fileUploadS then pdfS
  else if eqL source apiCallS || eqL source jsonInputS then jsonS
  else if eqL source emailProcessingS || eqL source emailInputS then emailS
  else emailS


/-! Keyword fallback intent classification
(LLMService._fallback_intent_classification). -/

structure IntentResult where
  intent : String
  confidence : ℚ
  reasoning : String
  deriving DecidableEq

def complaintKeywords : List (List Char) :=
  [("complaint" : String).toList, ("dissatisfied" : String).toList,
   ("problem" : String).toList, ("issue" : String).toList,
   ("error" : String).toList, ("wrong" : String).toList,
   ("bad" : String).toList, ("terrible" : String).toList,
   ("awful" : String).toList, ("unacceptable" : String).toList]

def rfqKeywords : List (List Char) :=
  [("quote" : String).toList, ("quotation" : String).toList,
   ("rfq" : String).toList, ("request" : String).toList,
   ("inquiry" : String).toList, ("product" : String).toList,
   ("purchase" : String).toList, ("buy" : String).toList,
   ("pricing" : String).toList, ("cost" : String).toList]

def invoiceKeywords : List (List Char) :=
  [("invoice" : String).toList, ("bill" : String).toList,
   ("payment" : String).toList, ("charge" : String).toList,
   ("amount" : String).toList, ("total" : String).toList,
   ("due" : String).toList, ("paid" : String).toList,
   ("$" : String).toList, ("price" : String).toList]

def regulationKeywords : List (List Char) :=
  [("regulation" : String).toList, ("compliance" : String).toList,
   ("policy" : String).toList, ("rule" : String).toList,
   ("law" : String).toList, ("requirement" : String).toList]

def anyKeyword (tl : List Char) (kws : List (List Char)) : Bool :=
  kws.any (fun k => containsSub tl k)

/-- Body of the fallback classifier, applied to the lower-cased text. -/
def fallbackBody (tl : List Char) : IntentResult :=
  if anyKeyword tl complaintKeywords then
    ⟨"Complaint", mkRat 4 5, "Keyword-based: complaint indicators"⟩
  else if anyKeyword tl rfqKeywords then
    ⟨"RFQ", mkRat 4 5, "Keyword-based: request/inquiry indicators"⟩
  else if anyKeyword tl invoiceKeywords then
    ⟨"Invoice", mkRat 4 5, "Keyword-based: financial/billing indicators"⟩
  else if anyKeyword tl regulationKeywords then
    ⟨"Regulation", mkRat 4 5, "Keyword-based: regulatory indicators"⟩
  else
    ⟨"General Inquiry", mkRat 3 5, "Keyword-based: default classification"⟩

/-- LLMService._fallback_intent_classification: lower-case the text, then
scan the keyword sets in fixed order. -/
def fallback_intent_classification (text : List Char) : IntentResult :=
  fallbackBody (lowerL text)

/-- Modelled from the spec's words for comparison: the priority ladder of
keyword categories, first match wins. -/
def intentLadder : List (String × List (List Char)) :=
  [("Complaint", complaintKeywords), ("RFQ", rfqKeywords),
   ("Invoice", invoiceKeywords), ("Regulation", regulationKeywords)]

/-- Modelled from the spec's words: intent and confidence of the first
matching category, with the General Inquiry default at confidence 0.6. -/
def specFirstMatchIntent (text : List Char) : String × ℚ :=
  match intentLadder.find? (fun c => anyKeyword (lowerL text) c.2) with
  | some c => (c.1, mkRat 4 5)
  | none => ("General Inquiry", mkRat 3 5)

/-! JSON structure detection (JSONAgent.detect_structure_type). -/

def norS : String := "nested_order_request"
def noS : String := "nested_order"
def flatS : String := "flat_order"
def rfqS : String := "rfq_structure"
def customS : String := "custom_structure"
def arrayS : String := "array_structure"
def unknownS : String := "unknown_structure"

/-- JSONAgent.detect_structure_type. -/
def detect_structure_type (data : JValue) : String :=
  match data with
  | .obj d =>
    if hasKey d "orderRequest" then norS
    else if hasKey d "order" then noS
    else if hasKey d "id" || hasKey d "customer" || hasKey d "products" ||
        hasKey d "total" then flatS
    else if hasKey d "rfq" || hasKey d "request" || hasKey d "quote" then rfqS
    else customS
  | .arr _ => arrayS
  | _ => unknownS

/-- Modelled from the spec's words for comparison: the shape ladder as a
priority list of key sets over an object's top level; arrays are always
ArrayStructure; the rest of the objects are CustomStructure.  Scalars get
the separate unknown tag (the amended reading). -/
def shapeLadder : List (List String × String) :=
  [(["orderRequest"], norS), (["order"], noS),
   (["id", "customer", "products", "total"], flatS),
   (["rfq", "request", "quote"], rfqS)]

def specStructureType (data : JValue) : String :=
  match data with
  | .obj d =>
    ((shapeLadder.find? (fun p => p.1.any (fun k => hasKey d k))).map
      Prod.snd).getD customS
  | .arr _ => arrayS
  | _ => unknownS

/-! JSON normalization strategies (JSONAgent).  A record is a Python dict;
the bodies of the two nested strategies run under a try/except that
catches any exception together with the anomalies accumulated so far. -/

abbrev Rec := List (String × JValue)

def attrGetMsg : String := "object has no attribute get"

/-- JSONAgent.create_empty_result. -/
def create_empty_result : Rec :=
  [("order_id", .str ""), ("customer_name", .str ""),
   ("items", .arr []), ("total_amount", .float 0)]

def processingErrorMsg (e : PyErr) : String :=
  "Processing error: " ++ pyErrMsg e

/-- Item loop of process_nested_order_request: build the processed item
dicts and accumulate float(unit_price) * int(quantity) for items whose
unit price is a number; non-dict entries add an index anomaly; int() on a
malformed quantity raises. -/
def nor_items_loop : List JValue → Nat → List String → List Rec → ℚ →
    Except (PyErr × List String) (List Rec × ℚ × List String)
  | [], _, anoms, procAcc, total => .ok (procAcc.reverse, total, anoms)
  | item :: rest, i, anoms, procAcc, total =>
    match item with
    | .obj io =>
      let processed : Rec :=
        [("sku", dgetD io "sku" (.str "")),
         ("description", dgetD io "description" (.str "")),
         ("quantity", dgetD io "quantity" (.int 0)),
         ("unitPrice", dgetD io "unitPrice" .null),
         ("preferredSpecs", dgetD io "preferredSpecs" (.obj []))]
      let unit_price := dgetD io "unitPrice" .null
      let quantity := dgetD io "quantity" (.int 0)
      match unit_price with
      | .null => nor_items_loop rest (i + 1) anoms (processed :: procAcc) total
      | up =>
        if isNumber up then
          match pyFloat up with
          | .error e => .error (e, anoms)
          | .ok p =>
            match pyInt quantity with
            | .error e => .error (e, anoms)
            | .ok q =>
              nor_items_loop rest (i + 1) anoms (processed :: procAcc)
                (qAdd total (qMul p (intQ q)))
        else nor_items_loop rest (i + 1) anoms (processed :: procAcc) total
    | _ =>
      nor_items_loop rest (i + 1)
        (anoms ++ ["Item " ++ toString i ++ " is not a valid object"])
        procAcc total

def noPricingMsg : String :=
  "No unit prices available - total amount cannot be calculated"

/-- Customer extraction of process_nested_order_request: name from a dict
(with an anomaly when falsy), a string as-is, anything else empty with an
invalid-format anomaly. -/
def norCustomerPair (customer : JValue) : JValue × List String :=
  match customer with
  | .obj co =>
    (dgetD co "name" (.str ""),
     if pyTruthy (dgetD co "name" (.str "")) then []
     else ["Missing customer name in orderRequest.customer"])
  | .str s => (.str s, [])
  | _ => (.str "", ["Invalid customer format in orderRequest"])

/-- Items extraction of process_nested_order_request: a list as-is (with
an emptiness anomaly), anything else replaced by an empty list with a
type anomaly. -/
def norItemsPair (itemsv : JValue) : List JValue × List String :=
  match itemsv with
  | .arr xs => (xs, if xs.isEmpty then ["orderRequest.items is empty"] else [])
  | _ => ([], ["orderRequest.items should be a list"])

/-- Items extraction of process_nested_order: a list as-is, anything else
replaced by an empty list with a type anomaly. -/
def noItemsPair (itemsv : JValue) : List JValue × List String :=
  match itemsv with
  | .arr xs => (xs, [])
  | _ => ([], ["Items should be a list"])

/-- Body of JSONAgent.process_nested_order_request (inside its try). -/
def process_nested_order_request_body (data : JValue) :
    Except (PyErr × List String) (Rec × List String) :=
  match data with
  | .obj d₀ =>
    match dgetD d₀ "orderRequest" (.obj []) with
    | .obj oro =>
      let order_id := pyStr (dgetD oro "id" (.str ""))
      let anoms₀ : List String :=
        if order_id = "" then ["Missing orderRequest.id"] else []
      let cnPair := norCustomerPair (dgetD oro "customer" (.obj []))
      let customer_name := cnPair.1
      let anoms₁ := anoms₀ ++ cnPair.2
      let itemsPair := norItemsPair (dgetD oro "items" (.arr []))
      let items := itemsPair.1
      let anoms₂ := anoms₁ ++ itemsPair.2
      match nor_items_loop items 0 anoms₂ [] 0 with
      | .error ea => .error ea
      | .ok (processed, total, anoms₃) =>
        let anoms₄ :=
          if total = 0 ∧ ¬ processed.isEmpty then anoms₃ ++ [noPricingMsg]
          else anoms₃
        .ok ([("order_id", .str order_id),
              ("customer_name", customer_name),
              ("items", .arr (processed.map JValue.obj)),
              ("total_amount", .float total),
              ("additional_info", .obj
                [("request_type", dgetD oro "requestType" (.str "")),
                 ("date_submitted", dgetD oro "dateSubmitted" (.str "")),
                 ("delivery_requirements", dgetD oro "deliveryRequirements" (.obj [])),
                 ("additional_notes", dgetD oro "additionalNotes" (.str ""))])],
             anoms₄)
    | _ => .error (.attributeError attrGetMsg, [])
  | _ => .error (.attributeError attrGetMsg, [])

/-- JSONAgent.process_nested_order_request: the try/except wrapper turns
any exception into the empty record plus a processing-error anomaly
appended to the anomalies accumulated before the raise. -/
def process_nested_order_request (data : JValue) : Rec × List String :=
  match process_nested_order_request_body data with
  | .ok ra => ra
  | .error (e, anoms) => (create_empty_result, anoms ++ [processingErrorMsg e])

/-- Loop of JSONAgent.calculate_total_from_items: unit price from the
unitPrice/price/unit_price chain (Python `or`: first truthy value),
quantity defaulting to 1. -/
def calcUnitPrice (io : Rec) : JValue :=
  let up₁ := dgetD io "unitPrice" .null
  let up₂ := if pyTruthy up₁ then up₁ else dgetD io "price" .null
  if pyTruthy up₂ then up₂ else dgetD io "unit_price" .null

def calc_items_loop : List JValue → ℚ → Except PyErr ℚ
  | [], total => .ok total
  | item :: rest, total =>
    match item with
    | .obj io =>
      let quantity := dgetD io "quantity" (.int 1)
      match calcUnitPrice io with
      | .null => calc_items_loop rest total
      | upv =>
        if isNumber upv then
          match pyFloat upv with
          | .error e => .error e
          | .ok p =>
            match pyInt quantity with
            | .error e => .error e
            | .ok q => calc_items_loop rest (qAdd total (qMul p (intQ q)))
        else calc_items_loop rest total
    | _ => calc_items_loop rest total

/-- JSONAgent.calculate_total_from_items. -/
def calculate_total_from_items (items : List JValue) : Except PyErr ℚ :=
  calc_items_loop items 0

/-- Body of JSONAgent.process_nested_order (inside its try). -/
def process_nested_order_body (data : JValue) :
    Except (PyErr × List String) (Rec × List String) :=
  match data with
  | .obj d₀ =>
    match dgetD d₀ "order" (.obj []) with
    | .obj oo =>
      let order_id := pyStr (dgetD oo "id" (.str ""))
      let anoms₀ : List String :=
        if order_id = "" then ["Missing order.id"] else []
      let customer := dgetD oo "customer" (.str "")
      let customer_name : JValue :=
        match customer with
        | .obj co => dgetD co "name" (.str "")
        | c => .str (pyStr c)
      let anoms₁ := anoms₀ ++
        (if pyTruthy customer_name then [] else ["Missing customer information"])
      let itemsPair := noItemsPair (dgetD oo "items" (dgetD oo "products" (.arr [])))
      let items := itemsPair.1
      let anoms₂ := anoms₁ ++ itemsPair.2
      match pyFloat (dgetD oo "total" (dgetD oo "amount" (.float 0))) with
      | .error e => .error (e, anoms₂)
      | .ok t₀ =>
        match (if t₀ = 0 then calculate_total_from_items items
               else Except.ok t₀) with
        | .error e => .error (e, anoms₂)
        | .ok total =>
          .ok ([("order_id", .str order_id),
                ("customer_name", customer_name),
                ("items", .arr items),
                ("total_amount", .float total)], anoms₂)
    | _ => .error (.attributeError attrGetMsg, [])
  | _ => .error (.attributeError attrGetMsg, [])

/-- JSONAgent.process_nested_order with its try/except wrapper. -/
def process_nested_order (data : JValue) : Rec × List String :=
  match process_nested_order_body data with
  | .ok ra => ra
  | .error (e, anoms) => (create_empty_result, anoms ++ [processingErrorMsg e])

/-! FlatOrder validation: required fields with expected types, checked in
order, one anomaly per missing or mistyped field (the Python message also
spells out the expected and actual classes, abbreviated here). -/

def flatRequiredFields : List (String × (JValue → Bool)) :=
  [("id", isStr), ("customer", isStr), ("products", isList),
   ("total", isNumber)]

def fieldAnomaly (d : Rec) (f : String × (JValue → Bool)) : Option String :=
  if ¬ hasKey d f.1 then some ("Missing field: " ++ f.1)
  else if ¬ f.2 (dgetD d f.1 .null) then some ("Invalid type for " ++ f.1)
  else none

/-- JSONAgent.process_flat_order; float() on the total can raise, and a
non-dict input raises on the membership test. -/
def process_flat_order (data : JValue) : Except PyErr (Rec × List String) :=
  match data with
  | .obj d =>
    let anomalies := flatRequiredFields.foldl
      (fun acc f => match fieldAnomaly d f with
        | some m => acc ++ [m]
        | none => acc) []
    match pyFloat (dgetD d "total" (.float 0)) with
    | .error e => .error e
    | .ok t =>
      .ok ([("order_id", .str (pyStr (dgetD d "id" (.str "")))),
            ("customer_name", dgetD d "customer" (.str "")),
            ("items", dgetD d "products" (.arr [])),
            ("total_amount", .float t)], anomalies)
  | _ => .error (.typeError "argument is not iterable")

/-- JSONAgent.process_rfq_structure; rfq_data.get raises when the rfq key
holds a non-dict. -/
def process_rfq_structure (data : JValue) : Except PyErr (Rec × List String) :=
  match data with
  | .obj d =>
    match dgetD d "rfq" (.obj d) with
    | .obj ro =>
      let order_id := pyStr (dgetD ro "rfq_number" (dgetD ro "id" (.str "")))
      let customer_name := dgetD ro "vendor" (dgetD ro "customer" (.str ""))
      let rec₀ : Rec :=
        [("order_id", .str order_id),
         ("customer_name", customer_name),
         ("items", dgetD ro "items" (dgetD ro "products" (.arr []))),
         ("total_amount", .float 0),
         ("rfq_specific", .obj
           [("deadline", dgetD ro "deadline" (.str "")),
            ("requirements", dgetD ro "requirements" (.str "")),
            ("specifications", dgetD ro "specifications" (.obj []))])]
      let anoms :=
        (if order_id = "" then ["Missing RFQ number or ID"] else []) ++
        (if pyTruthy customer_name then []
         else ["Missing vendor/customer information"])
      .ok (rec₀, anoms)
    | _ => .error (.attributeError attrGetMsg)
  | _ => .error (.attributeError attrGetMsg)

mutual

/-- find_field_value of process_custom_structure: depth-first search for a
case-insensitive key match; a matching key ends the scan, and a matching
None value is indistinguishable from not-found (Python returns None). -/
def find_field_value (v : JValue) (names : List String) : Option JValue :=
  match v with
  | .obj d => find_field_entries d names
  | .arr xs => find_field_list xs names
  | _ => none

def find_field_entries : List (String × JValue) → List String → Option JValue
  | [], _ => none
  | (k, v) :: rest, names =>
    if names.any (fun n => k.toLower = n.toLower) then
      match v with
      | .null => none
      | v₂ => some v₂
    else
      match v with
      | .obj d₂ =>
        (match find_field_value (.obj d₂) names with
         | some r => some r
         | none => find_field_entries rest names)
      | .arr xs =>
        (match find_field_value (.arr xs) names with
         | some r => some r
         | none => find_field_entries rest names)
      | _ => find_field_entries rest names

def find_field_list : List JValue → List String → Option JValue
  | [], _ => none
  | x :: rest, names =>
    match find_field_value x names with
    | some r => some r
    | none => find_field_list rest names

end

/-- JSONAgent.process_custom_structure: best-effort extraction with an
unconditional anomaly and the raw input kept in the record. -/
def process_custom_structure (data : JValue) : Rec × List String :=
  let anomalies := ["Unknown JSON structure - using best-effort extraction"]
  let idv := find_field_value data ["id", "order_id", "orderid", "number"]
  let order_id : String :=
    match idv with
    | some v => if pyTruthy v then pyStr v else ""
    | none => ""
  let cv := find_field_value data ["customer", "client", "name", "customer_name"]
  let customer_name : JValue :=
    match cv with
    | some v =>
      if pyTruthy v then
        match v with
        | .obj co => dgetD co "name" (.str (pyStr v))
        | _ => .str (pyStr v)
      else .str ""
    | none => .str ""
  let iv := find_field_value data ["items", "products", "orders", "line_items"]
  let items : JValue :=
    match iv with
    | some v => if pyTruthy v ∧ isList v = true then v else .arr []
    | none => .arr []
  let tv := find_field_value data ["total", "amount", "total_amount", "price"]
  let total_amount : ℚ :=
    match tv with
    | some v =>
      if pyTruthy v ∧ isNumber v = true then
        match pyFloat v with
        | .ok q => q
        | .error _ => 0
      else 0
    | none => 0
  ([("order_id", .str order_id),
    ("customer_name", customer_name),
    ("items", items),
    ("total_amount", .float total_amount),
    ("raw_structure", data)], anomalies)

mutual

/-- JSONAgent.process_json_structure: dispatch on the detected structure
type; the two nested strategies catch internally, the others can raise. -/
def process_json_structure : JValue → Except PyErr (Rec × List String)
  | .arr xs => process_array_structure xs
  | data =>
    if detect_structure_type data = norS then
      .ok (process_nested_order_request data)
    else if detect_structure_type data = noS then
      .ok (process_nested_order data)
    else if detect_structure_type data = flatS then process_flat_order data
    else if detect_structure_type data = rfqS then process_rfq_structure data
    else .ok (process_custom_structure data)

/-- JSONAgent.process_array_structure: normalize the first element, then
note and count the remainder. -/
def process_array_structure : List JValue → Except PyErr (Rec × List String)
  | [] => .ok (create_empty_result, ["Empty array provided"])
  | x :: rest =>
    match process_json_structure x with
    | .error e => .error e
    | .ok (r, a) =>
      if rest.isEmpty then .ok (r, a)
      else .ok (dset r "additional_items_count" (.int rest.length),
        a ++ ["Array contains " ++ toString (rest.length + 1) ++
          " items, processed only the first one"])

end

/-- JSONAgent.process: load the input (a direct JSON string when it starts
with a brace, otherwise a file read through the oracle), normalize, attach
anomalies when present; any exception yields the error record.  The
context-store update is effect-free for the returned value. -/
def process (readFile : List Char → Option (List Char)) (input : List Char) :
    Rec :=
  let loaded : Except PyErr JValue :=
    if startsWith input braceS then
      match jparse input with
      | some v => .ok v
      | none => .error (.jsonDecodeError "Expecting value")
    else
      match readFile input with
      | some content =>
        match jparse content with
        | some v => .ok v
        | none => .error (.jsonDecodeError "Expecting value")
      | none => .error (.fileNotFoundError "No such file or directory")
  let body : Except PyErr (Rec × List String) :=
    match loaded with
    | .error e => .error e
    | .ok data => process_json_structure data
  match body with
  | .ok (r, anomalies) =>
    if anomalies.isEmpty then r
    else dset r "anomalies" (.arr (anomalies.map JValue.str))
  | .error e =>
    [("error", .str "Failed to process JSON"),
     ("details", .str (pyErrMsg e)),
     ("order_id", .str ""),
     ("customer_name", .str ""),
     ("items", .arr []),
     ("total_amount", .float 0)]

/-! Spec-side definitions used to state the claims. -/

/-- The rational value of a Python number (int, float, or bool). -/
def numQ : JValue → Option ℚ
  | .int n => some (intQ n)
  | .float q => some q
  | .bool b => some (if b then 1 else 0)
  | _ => none

/-- Sum of a list of rationals by the reducible addition. -/
def qSum (l : List ℚ) : ℚ := l.foldr qAdd 0

/-- Contribution of one orderRequest item to the total: defined for dict
items carrying a numeric unit price whose quantity (default 0) converts
with int(); the term is unit_price times the truncated quantity. -/
def norItemTerm (item : JValue) : Option ℚ :=
  match item with
  | .obj io =>
    match numQ (dgetD io "unitPrice" .null) with
    | some p =>
      match pyInt (dgetD io "quantity" (.int 0)) with
      | .ok q => some (qMul p (intQ q))
      | .error _ => none
    | none => none
  | _ => none

/-- The processed dict that process_nested_order_request builds for a dict
item (non-dicts produce none). -/
def norProcItem (item : JValue) : Option Rec :=
  match item with
  | .obj io =>
    some [("sku", dgetD io "sku" (.str "")),
          ("description", dgetD io "description" (.str "")),
          ("quantity", dgetD io "quantity" (.int 0)),
          ("unitPrice", dgetD io "unitPrice" .null),
          ("preferredSpecs", dgetD io "preferredSpecs" (.obj []))]
  | _ => none

/-- Anomalies of the item loop: one indexed message per non-dict item. -/
def norItemAnoms : List JValue → Nat → List String
  | [], _ => []
  | .obj _ :: rest, i => norItemAnoms rest (i + 1)
  | _ :: rest, i =>
    ("Item " ++ toString i ++ " is not a valid object") ::
      norItemAnoms rest (i + 1)

/-- The items list that process_nested_order_request iterates over. -/
def norItems (data : JValue) : List JValue :=
  match data with
  | .obj d₀ =>
    match dgetD d₀ "orderRequest" (.obj []) with
    | .obj oro => (norItemsPair (dgetD oro "items" (.arr []))).1
    | _ => []
  | _ => []

/-- The raw total/amount value that process_nested_order converts. -/
def noTotalRaw (data : JValue) : JValue :=
  match data with
  | .obj d₀ =>
    match dgetD d₀ "order" (.obj []) with
    | .obj oo => dgetD oo "total" (dgetD oo "amount" (.float 0))
    | _ => .float 0
  | _ => .float 0

/-- The items list that process_nested_order recomputes totals from. -/
def noItems (data : JValue) : List JValue :=
  match data with
  | .obj d₀ =>
    match dgetD d₀ "order" (.obj []) with
    | .obj oo => (noItemsPair (dgetD oo "items" (dgetD oo "products" (.arr [])))).1
    | _ => []
  | _ => []

/-- Contribution of one item to calculate_total_from_items: price from
the unitPrice/price/unit_price truthiness chain when numeric, times the
int()-converted quantity (default 1). -/
def calcItemTerm (item : JValue) : Option ℚ :=
  match item with
  | .obj io =>
    match numQ (calcUnitPrice io) with
    | some p =>
      match pyInt (dgetD io "quantity" (.int 1)) with
      | .ok q => some (qMul p (intQ q))
      | .error _ => none
    | none => none
  | _ => none

/-- Modelled from the spec's words: the flat-order anomaly list is one
message for each of the four required fields that is missing or mistyped,
in field order, with no short-circuit. -/
def flatSpecAnomalies (d : Rec) : List String :=
  (flatRequiredFields.filter (fun f => (fieldAnomaly d f).isSome)).map
    (fun f => (fieldAnomaly d f).getD "")

/-- The wire-visible base field names of the canonical record. -/
def baseKeys : List String :=
  ["order_id", "customer_name", "items", "total_amount"]

/-- The shape-specific optional keys of the canonical record. -/
def optionalKeys : List String :=
  ["additional_info", "rfq_specific", "raw_structure",
   "additional_items_count"]

/-- All keys a process result may carry, after the amendment: the base
keys, the shape-specific keys, the anomalies key, and the error/details
pair of the exception path. -/
def allowedKeys : List String :=
  baseKeys ++ optionalKeys ++ ["anomalies", "error", "details"]

/-- The shape every normalizer record satisfies: all base keys present,
no keys beyond the base and shape-specific ones, order_id a string and
total_amount a float. -/
def RecShape (r : Rec) : Prop :=
  (∀ k ∈ baseKeys, k ∈ dkeys r) ∧
  (∀ k ∈ dkeys r, k ∈ baseKeys ++ optionalKeys) ∧
  (∃ s, dlookup r "order_id" = some (.str s)) ∧
  (∃ q, dlookup r "total_amount" = some (.float q))

/-! Agreement of the reducible rational arithmetic with the ring
operations of ℚ, and sanity evaluations of the embedded functions. -/

theorem intQ_eq (n : Int) : intQ n = (n : ℚ) := by
  simp [intQ]

theorem natQ_eq (n : Nat) : natQ n = (n : ℚ) := by
  simp [natQ]

theorem qAdd_eq (a b : ℚ) : qAdd a b = a + b := by
  conv_rhs => rw [← Rat.mkRat_self a, ← Rat.mkRat_self b]
  rw [Rat.mkRat_add_mkRat _ _ a.den_nz b.den_nz, qAdd]

theorem qMul_eq (a b : ℚ) : qMul a b = a * b := by
  conv_rhs => rw [← Rat.mkRat_self a, ← Rat.mkRat_self b]
  rw [Rat.mkRat_mul_mkRat, qMul]

example : jparse "hello".toList = none := by rfl
example : jparse " \x7b\"a\": 1, \"b\": [true, null]\x7d ".toList =
    some (.obj [("a", .int 1), ("b", .arr [.bool true, .null])]) := by rfl
example : (jparse "1500.50".toList).bind asFloat = some (mkRat 3001 2) := by decide
example : (jparse "-2e2".toList).bind asFloat = some (mkRat (-200) 1) := by decide

example : detectFormat (fun _ => false) "hello".toList fileUploadS = pdfS := by
  rfl
example : detectFormat (fun _ => false) "hello".toList "watch".toList =
    emailS := by rfl
example : detectFormat (fun _ => false) "hello".toList "report.PDF".toList =
    pdfS := by rfl
example : detectFormat (fun _ => false)
    "From: a@b.c\nSubject: hi".toList "inbound".toList = emailS := by rfl
example : detectFormat (fun _ => false)
    "\x7b\"id\": \"1\", \"total\": 5\x7d".toList "api_call".toList =
    jsonS := by rfl

example : (fallback_intent_classification
    "We have a PROBLEM with your invoice".toList).intent = "Complaint" := by
  rfl
example : (fallback_intent_classification "hi there".toList) =
    ⟨"General Inquiry", mkRat 3 5, "Keyword-based: default classification"⟩ := by
  rfl

/-! Claim theorems. -/

/-- Claim C9: normalizing the empty orderRequest example yields exactly
the three anomalies "Missing orderRequest.id", "Missing customer name in
orderRequest.customer" and "orderRequest.items is empty", a total_amount
of 0.0, and no "cannot be calculated" anomaly, since the items list is
empty rather than priced-but-unpriced. -/
theorem c9_empty_order_request_example :
    process_nested_order_request (.obj [("orderRequest", .obj
      [("id", .str ""), ("customer", .obj [("name", .str "")]),
       ("items", .arr [])])]) =
    ([("order_id", .str ""), ("customer_name", .str ""), ("items", .arr []),
      ("total_amount", .float 0),
      ("additional_info", .obj
        [("request_type", .str ""), ("date_submitted", .str ""),
         ("delivery_requirements", .obj []), ("additional_notes", .str "")])],
     ["Missing orderRequest.id",
      "Missing customer name in orderRequest.customer",
      "orderRequest.items is empty"]) ∧
    noPricingMsg ∉
      ["Missing orderRequest.id",
       "Missing customer name in orderRequest.customer",
       "orderRequest.items is empty"] := by
  exact ⟨rfl, by decide⟩

/-- Claim C5 (counterexample): the structure classifier does not assign
CustomStructure to every non-object non-array value; a bare number is
tagged unknown_structure instead. -/
theorem c5_counterexample :
    detect_structure_type (.int 5) = unknownS ∧ unknownS ≠ customS := by
  exact ⟨rfl, by decide⟩

/-- Claim C5 (amended): the first-match precedence ladder over objects is
as claimed (orderRequest over order over the flat-order key set over the
RFQ keys, otherwise CustomStructure), and every top-level array is
ArrayStructure regardless of contents; but every value that is neither an
object nor an array is tagged unknown_structure (the dispatcher later
processes that tag with the custom-structure strategy). -/
theorem c5_structure_ladder (v : JValue) :
    detect_structure_type v = specStructureType v := by
  cases v <;>
    simp [detect_structure_type, specStructureType, shapeLadder, List.find?]
  case obj d =>
    cases h₁ : hasKey d "orderRequest" <;>
      cases h₂ : hasKey d "order" <;>
        simp [h₁, h₂] <;>
    cases h₃ : hasKey d "id" <;>
      cases h₄ : hasKey d "customer" <;>
        cases h₅ : hasKey d "products" <;>
          cases h₆ : hasKey d "total" <;>
            simp [h₃, h₄, h₅, h₆] <;>
    cases h₇ : hasKey d "rfq" <;>
      cases h₈ : hasKey d "request" <;>
        cases h₉ : hasKey d "quote" <;>
          simp [h₇, h₈, h₉]

/-- Claim C2 (counterexample): process_json_structure can raise: a
flat-order object whose total is the string "abc" reaches float("abc"),
and the ValueError escapes the normalizer (only JSONAgent.process catches
it). -/
theorem c2_counterexample :
    process_json_structure (.obj [("id", .str "1"), ("customer", .str "A"),
      ("products", .arr []), ("total", .str "abc")]) =
    .error (.valueError "could not convert string to float: abc") := by
  rfl

/-- Claim C2 (amended): the nested_order_request and nested_order
strategies never raise out of process_json_structure, and their internal
try/except degrades a failing body to the empty canonical record plus a
trailing anomaly describing the processing error; the flat-order and RFQ
strategies can raise (see the counterexample), caught only by the outer
JSONAgent.process. -/
theorem c2_nested_strategies_never_raise :
    (∀ d : JValue,
      detect_structure_type d = norS ∨ detect_structure_type d = noS →
      (process_json_structure d).isOk = true) ∧
    (∀ (d : JValue) (e : PyErr) (anoms : List String),
      process_nested_order_request_body d = .error (e, anoms) →
      process_nested_order_request d =
        (create_empty_result, anoms ++ [processingErrorMsg e])) ∧
    (∀ (d : JValue) (e : PyErr) (anoms : List String),
      process_nested_order_body d = .error (e, anoms) →
      process_nested_order d =
        (create_empty_result, anoms ++ [processingErrorMsg e])) := by
  refine ⟨?_, ?_, ?_⟩
  · intro d h
    cases d with
    | arr xs =>
      simp [detect_structure_type] at h
      rcases h with h | h <;> simp [arrayS, norS, noS] at h
    | obj d₀ =>
      rcases h with h | h <;>
        simp [process_json_structure, h, norS, noS, Except.isOk, Except.toBool]
    | null =>
      simp [detect_structure_type] at h
      rcases h with h | h <;> simp [unknownS, norS, noS] at h
    | bool b =>
      simp [detect_structure_type] at h
      rcases h with h | h <;> simp [unknownS, norS, noS] at h
    | int n =>
      simp [detect_structure_type] at h
      rcases h with h | h <;> simp [unknownS, norS, noS] at h
    | float q =>
      simp [detect_structure_type] at h
      rcases h with h | h <;> simp [unknownS, norS, noS] at h
    | str s =>
      simp [detect_structure_type] at h
      rcases h with h | h <;> simp [unknownS, norS, noS] at h
  · intro d e anoms h
    unfold process_nested_order_request
    rw [h]
  · intro d e anoms h
    unfold process_nested_order
    rw [h]

/-- Claim C2 witness: a nested_order_request document whose orderRequest
value is a bare string makes the body raise AttributeError, yet the
strategy returns the empty record with a processing-error anomaly and the
dispatcher reports success. -/
theorem c2_witness :
    (process_json_structure (.obj [("orderRequest", .str "x")])).isOk = true ∧
    process_nested_order_request (.obj [("orderRequest", .str "x")]) =
      (create_empty_result, ["Processing error: " ++ attrGetMsg]) := by
  refine ⟨c2_nested_strategies_never_raise.1 _ (Or.inl rfl), ?_⟩
  exact c2_nested_strategies_never_raise.2.1 _ (.attributeError attrGetMsg) [] rfl

/-- Claim C4: the keyword fallback classifier is a pure function of the
lower-cased text; it checks complaint, request/inquiry, billing and
regulatory keyword sets in that fixed order and returns the first matching
category, defaulting to General Inquiry with confidence 0.6. -/
theorem c4_fallback_keyword_ladder :
    (∀ t₁ t₂ : List Char, lowerL t₁ = lowerL t₂ →
      fallback_intent_classification t₁ = fallback_intent_classification t₂) ∧
    (∀ t : List Char,
      (fallback_intent_classification t).intent = (specFirstMatchIntent t).1 ∧
      (fallback_intent_classification t).confidence =
        (specFirstMatchIntent t).2) ∧
    (∀ t : List Char,
      (∀ c ∈ intentLadder, anyKeyword (lowerL t) c.2 = false) →
      fallback_intent_classification t =
        ⟨"General Inquiry", mkRat 3 5,
         "Keyword-based: default classification"⟩) := by
  refine ⟨?_, ?_, ?_⟩
  · intro t₁ t₂ h
    unfold fallback_intent_classification
    rw [h]
  · intro t
    unfold fallback_intent_classification specFirstMatchIntent intentLadder
      fallbackBody
    cases h₁ : anyKeyword (lowerL t) complaintKeywords <;>
      cases h₂ : anyKeyword (lowerL t) rfqKeywords <;>
        cases h₃ : anyKeyword (lowerL t) invoiceKeywords <;>
          cases h₄ : anyKeyword (lowerL t) regulationKeywords <;>
            simp [List.find?, h₁, h₂, h₃, h₄]
  · intro t h
    have h₁ := h ("Complaint", complaintKeywords) (by simp [intentLadder])
    have h₂ := h ("RFQ", rfqKeywords) (by simp [intentLadder])
    have h₃ := h ("Invoice", invoiceKeywords) (by simp [intentLadder])
    have h₄ := h ("Regulation", regulationKeywords) (by simp [intentLadder])
    unfold fallback_intent_classification fallbackBody
    simp only at h₁ h₂ h₃ h₄
    rw [h₁, h₂, h₃, h₄]
    rfl

/-- Claim C4 witness: case-insensitivity and the ladder at concrete
inputs — an upper-case text classifies like its lower-case form, and a
keyword-free text yields the default. -/
theorem c4_witness :
    fallback_intent_classification "URGENT PROBLEM".toList =
      fallback_intent_classification "urgent problem".toList ∧
    (fallback_intent_classification "hello".toList).intent =
      (specFirstMatchIntent "hello".toList).1 := by
  refine ⟨c4_fallback_keyword_ladder.1 _ _ (by decide), ?_⟩
  exact (c4_fallback_keyword_ladder.2.1 "hello".toList).1

/-! Shared helper lemmas about the flat-order strategy. -/

theorem foldl_anomaly_filterMap (d : Rec) :
    ∀ (fields : List (String × (JValue → Bool))) (acc : List String),
    fields.foldl (fun acc f => match fieldAnomaly d f with
      | some m => acc ++ [m]
      | none => acc) acc =
    acc ++ (fields.filter (fun f => (fieldAnomaly d f).isSome)).map
      (fun f => (fieldAnomaly d f).getD "") := by
  intro fields
  induction fields with
  | nil => simp
  | cons f rest ih =>
    intro acc
    cases h : fieldAnomaly d f <;> simp [List.foldl_cons, h, ih]

theorem process_flat_order_ok (d : Rec) (r : Rec) (a : List String)
    (h : process_flat_order (.obj d) = .ok (r, a)) :
    (∃ t, pyFloat (dgetD d "total" (.float 0)) = .ok t ∧
      r = [("order_id", .str (pyStr (dgetD d "id" (.str "")))),
           ("customer_name", dgetD d "customer" (.str "")),
           ("items", dgetD d "products" (.arr [])),
           ("total_amount", .float t)]) ∧
    a = flatSpecAnomalies d := by
  simp only [process_flat_order] at h
  cases hf : pyFloat (dgetD d "total" (.float 0)) with
  | error e => rw [hf] at h; simp at h
  | ok t =>
    rw [hf] at h
    simp only [Except.ok.injEq, Prod.mk.injEq] at h
    obtain ⟨hr, ha⟩ := h
    subst hr
    subst ha
    refine ⟨⟨t, rfl, rfl⟩, ?_⟩
    rw [foldl_anomaly_filterMap d flatRequiredFields []]
    simp [flatSpecAnomalies]

/-- Every message that the flat-order validation can emit for a field is
its missing-field or invalid-type message. -/
theorem fieldAnomaly_cases (d : Rec) (f : String × (JValue → Bool))
    (m : String) (h : fieldAnomaly d f = some m) :
    m = "Missing field: " ++ f.1 ∨ m = "Invalid type for " ++ f.1 := by
  unfold fieldAnomaly at h
  split at h
  · exact Or.inl (by injection h with h₂; rw [h₂])
  · split at h
    · exact Or.inr (by injection h with h₂; rw [h₂])
    · exact absurd h (by simp)

/-- Claim C8: flat-order validation type-checks all four required fields
{id: string, customer: string, products: list, total: number}, appending
exactly one anomaly per missing or mistyped field in field order with no
short-circuit; and the documented round-trip example normalizes with zero
anomalies to the expected record. -/
theorem c8_flat_order_validation :
    (∀ (d : Rec) (r : Rec) (a : List String),
      process_flat_order (.obj d) = .ok (r, a) → a = flatSpecAnomalies d) ∧
    process_flat_order (.obj [("id", .str "12345"),
      ("customer", .str "Jane Smith"),
      ("products", .arr [.str "Product X", .str "Product Y"]),
      ("total", .float (mkRat 3001 2))]) =
    .ok ([("order_id", .str "12345"),
          ("customer_name", .str "Jane Smith"),
          ("items", .arr [.str "Product X", .str "Product Y"]),
          ("total_amount", .float (mkRat 3001 2))], []) := by
  exact ⟨fun d r a h => (process_flat_order_ok d r a h).2, rfl⟩

/-- Claim C8 witness: a flat order carrying only a mistyped id receives
one anomaly per bad field, in field order. -/
theorem c8_witness :
    process_flat_order (.obj [("id", .int 7)]) =
      .ok ([("order_id", .str "7"), ("customer_name", .str ""),
            ("items", .arr []), ("total_amount", .float 0)],
           ["Invalid type for id", "Missing field: customer",
            "Missing field: products", "Missing field: total"]) ∧
    ["Invalid type for id", "Missing field: customer",
     "Missing field: products", "Missing field: total"] =
      flatSpecAnomalies [("id", .int 7)] := by
  exact ⟨rfl, c8_flat_order_validation.1 [("id", .int 7)] _ _ rfl⟩

/-- Claim C10: a flat order whose total is a boolean passes the number
type-check (Python bool is a subclass of int), producing no missing-field
or invalid-type anomaly for total, and the normalized total_amount is 1.0
for true and 0.0 for false. -/
theorem c10_flat_order_bool_total (d : Rec) (b : Bool)
    (h : dlookup d "total" = some (.bool b)) :
    fieldAnomaly d ("total", isNumber) = none ∧
    ∃ r a, process_flat_order (.obj d) = .ok (r, a) ∧
      dlookup r "total_amount" = some (.float (if b then 1 else 0)) ∧
      "Missing field: total" ∉ a ∧ "Invalid type for total" ∉ a := by
  have hta : fieldAnomaly d ("total", isNumber) = none := by
    simp [fieldAnomaly, hasKey, dgetD, h, isNumber]
  refine ⟨hta, ?_⟩
  have hfl : pyFloat (dgetD d "total" (.float 0)) =
      .ok (if b then 1 else 0) := by
    simp [dgetD, h, pyFloat]
  refine ⟨[("order_id", .str (pyStr (dgetD d "id" (.str "")))),
           ("customer_name", dgetD d "customer" (.str "")),
           ("items", dgetD d "products" (.arr [])),
           ("total_amount", .float (if b then 1 else 0))],
          flatSpecAnomalies d, ?_, ?_, ?_, ?_⟩
  · simp only [process_flat_order]
    rw [hfl, foldl_anomaly_filterMap d flatRequiredFields []]
    simp [flatSpecAnomalies]
  · simp [dlookup]
  · intro hmem
    simp only [flatSpecAnomalies, List.mem_map, List.mem_filter] at hmem
    obtain ⟨f, ⟨hf, hsome⟩, hmsg⟩ := hmem
    simp only [flatRequiredFields, List.mem_cons, List.not_mem_nil] at hf
    rcases hf with rfl | rfl | rfl | rfl | h₅
    · cases hc : fieldAnomaly d ("id", isStr) with
      | none => rw [hc] at hsome; simp at hsome
      | some m =>
        rw [hc] at hmsg
        rcases fieldAnomaly_cases d _ m hc with rfl | rfl <;> simp at hmsg
    · cases hc : fieldAnomaly d ("customer", isStr) with
      | none => rw [hc] at hsome; simp at hsome
      | some m =>
        rw [hc] at hmsg
        rcases fieldAnomaly_cases d _ m hc with rfl | rfl <;> simp at hmsg
    · cases hc : fieldAnomaly d ("products", isList) with
      | none => rw [hc] at hsome; simp at hsome
      | some m =>
        rw [hc] at hmsg
        rcases fieldAnomaly_cases d _ m hc with rfl | rfl <;> simp at hmsg
    · rw [hta] at hsome
      simp at hsome
    · exact h₅.elim
  · intro hmem
    simp only [flatSpecAnomalies, List.mem_map, List.mem_filter] at hmem
    obtain ⟨f, ⟨hf, hsome⟩, hmsg⟩ := hmem
    simp only [flatRequiredFields, List.mem_cons, List.not_mem_nil] at hf
    rcases hf with rfl | rfl | rfl | rfl | h₅
    · cases hc : fieldAnomaly d ("id", isStr) with
      | none => rw [hc] at hsome; simp at hsome
      | some m =>
        rw [hc] at hmsg
        rcases fieldAnomaly_cases d _ m hc with rfl | rfl <;> simp at hmsg
    · cases hc : fieldAnomaly d ("customer", isStr) with
      | none => rw [hc] at hsome; simp at hsome
      | some m =>
        rw [hc] at hmsg
        rcases fieldAnomaly_cases d _ m hc with rfl | rfl <;> simp at hmsg
    · cases hc : fieldAnomaly d ("products", isList) with
      | none => rw [hc] at hsome; simp at hsome
      | some m =>
        rw [hc] at hmsg
        rcases fieldAnomaly_cases d _ m hc with rfl | rfl <;> simp at hmsg
    · rw [hta] at hsome
      simp at hsome
    · exact h₅.elim

/-- Claim C10 witness: concrete flat orders with boolean totals true and
false normalize to totals 1.0 and 0.0 with no total anomaly. -/
theorem c10_witness :
    dlookup [("id", .str "1"), ("total", .bool true)] "total" =
      some (.bool true) ∧
    fieldAnomaly [("id", .str "1"), ("total", .bool true)]
      ("total", isNumber) = none ∧
    ∃ r a, process_flat_order (.obj [("id", .str "1"),
        ("total", .bool true)]) = .ok (r, a) ∧
      dlookup r "total_amount" = some (.float 1) := by
  have h := c10_flat_order_bool_total [("id", .str "1"), ("total", .bool true)]
    true rfl
  obtain ⟨h₁, r, a, h₂, h₃, _, _⟩ := h
  exact ⟨rfl, h₁, r, a, h₂, h₃⟩

/-! Shared helper lemmas about suffix checks for the extension claims. -/

theorem endsWith_false_of_other (s ext₁ ext₂ : List Char) (h₁ : ext₁ <:+ s)
    (hno₁ : ¬ ext₁ <:+ ext₂) (hno₂ : ¬ ext₂ <:+ ext₁) :
    endsWith s ext₂ = false := by
  cases he : endsWith s ext₂
  · rfl
  · have h₂ := List.isSuffixOf_iff_suffix.mp he
    rcases List.suffix_or_suffix_of_suffix h₂ h₁ with hc | hc
    · exact absurd hc hno₂
    · exact absurd hc hno₁

/-- Claim C6: the source-hint extension decides the format regardless of
content: hints ending in .pdf give PDF, .json give JSON and .eml give
Email, for every input and filesystem state (extension precedence over
content sniffing and over hint-substring tie-breakers). -/
theorem c6_extension_precedence (isfile : List Char → Bool)
    (input source : List Char) :
    (extPdfS <:+ source → detectFormat isfile input source = pdfS) ∧
    (extJsonS <:+ source → detectFormat isfile input source = jsonS) ∧
    (extEmlS <:+ source → detectFormat isfile input source = emailS) := by
  refine ⟨?_, ?_, ?_⟩
  · intro h
    have hl : extPdfS <:+ lowerL source := h.map Char.toLower
    have hsrc : ¬ source = fileUploadS := by
      intro he
      rw [he] at h
      exact absurd h (by decide)
    have hpdf : endsWith (lowerL source) extPdfS = true :=
      List.isSuffixOf_iff_suffix.mpr hl
    simp [detectFormat, eqL, hsrc, hpdf]
  · intro h
    have hl : extJsonS <:+ lowerL source := h.map Char.toLower
    have hsrc : ¬ source = fileUploadS := by
      intro he
      rw [he] at h
      exact absurd h (by decide)
    have hnpdf : endsWith (lowerL source) extPdfS = false :=
      endsWith_false_of_other _ extJsonS extPdfS hl (by decide) (by decide)
    have hjson : endsWith (lowerL source) extJsonS = true :=
      List.isSuffixOf_iff_suffix.mpr hl
    simp [detectFormat, eqL, hsrc, hnpdf, hjson]
  · intro h
    have hl : extEmlS <:+ lowerL source := h.map Char.toLower
    have hsrc : ¬ source = fileUploadS := by
      intro he
      rw [he] at h
      exact absurd h (by decide)
    have hnpdf : endsWith (lowerL source) extPdfS = false :=
      endsWith_false_of_other _ extEmlS extPdfS hl (by decide) (by decide)
    have hnjson : endsWith (lowerL source) extJsonS = false :=
      endsWith_false_of_other _ extEmlS extJsonS hl (by decide) (by decide)
    have heml : endsWith (lowerL source) extEmlS = true :=
      List.isSuffixOf_iff_suffix.mpr hl
    simp [detectFormat, eqL, hsrc, hnpdf, hnjson, heml]

/-- Claim C6 witness: a hint ending in .pdf maps to PDF even when the
content looks like an email, and likewise for .json and .eml hints. -/
theorem c6_witness :
    detectFormat (fun _ => false) "From: a@b.c".toList "doc.pdf".toList =
      pdfS ∧
    detectFormat (fun _ => false) "From: a@b.c".toList "doc.json".toList =
      jsonS ∧
    detectFormat (fun _ => false) "hello there".toList "doc.eml".toList =
      emailS := by
  refine ⟨?_, ?_, ?_⟩
  · exact (c6_extension_precedence (fun _ => false) "From: a@b.c".toList
      "doc.pdf".toList).1 (by decide)
  · exact (c6_extension_precedence (fun _ => false) "From: a@b.c".toList
      "doc.json".toList).2.1 (by decide)
  · exact (c6_extension_precedence (fun _ => false) "hello there".toList
      "doc.eml".toList).2.2 (by decide)

/-- Claim C1 (counterexample): with no decision rule applying — the hint
"file_upload" has no recognized extension and none of the tie-breaking
substrings, the content "hello" is not JSON, carries no PDF signature and
no email-header indicator, and names no existing file — detect_format
returns PDF, not Email. -/
theorem c1_counterexample :
    detectFormat (fun _ => false) "hello".toList fileUploadS = pdfS ∧
    pdfS ≠ emailS ∧
    endsWith (lowerL fileUploadS) extPdfS = false ∧
    endsWith (lowerL fileUploadS) extJsonS = false ∧
    endsWith (lowerL fileUploadS) extEmlS = false ∧
    endsWith (lowerL fileUploadS) extTxtS = false ∧
    endsWith (lowerL fileUploadS) extEmailS = false ∧
    jparse "hello".toList = none ∧
    jparse (pyStrip "hello".toList) = none ∧
    startsWith "hello".toList jvberiS = false ∧
    b64PdfCheck "hello".toList = false ∧
    hasEmailIndicator (pyStrip "hello".toList) = false ∧
    containsSub (lowerL fileUploadS) subEmailS = false ∧
    containsSub (lowerL fileUploadS) subJsonS = false ∧
    containsSub (lowerL fileUploadS) subApiS = false := by
  exact ⟨rfl, by decide, by decide, by decide, by decide, by decide,
    by decide, rfl, rfl, by decide, by decide, by decide, by decide,
    by decide, by decide⟩

/-- Claim C1 (amended): when no decision rule applies — no recognized
extension on the hint, content that is not valid JSON, no PDF signature,
no email-header indicator, no tie-breaking hint substring, and no file of
that name — detect_format returns Email, except that the exact hint
"file_upload" falls to the file-upload default and returns PDF. -/
theorem c1_default_format (isfile : List Char → Bool)
    (input source : List Char)
    (hextp : endsWith (lowerL source) extPdfS = false)
    (hextj : endsWith (lowerL source) extJsonS = false)
    (hexte : endsWith (lowerL source) extEmlS = false)
    (hextt : endsWith (lowerL source) extTxtS = false)
    (hextm : endsWith (lowerL source) extEmailS = false)
    (hjson : jparse input = none)
    (hjson₂ : jparse (pyStrip input) = none)
    (hsig : startsWith input jvberiS = false)
    (hb64 : b64PdfCheck input = false)
    (hind : hasEmailIndicator (pyStrip input) = false)
    (hsem : containsSub (lowerL source) subEmailS = false)
    (hsjs : containsSub (lowerL source) subJsonS = false)
    (hsap : containsSub (lowerL source) subApiS = false)
    (hfile : isfile input = false) :
    detectFormat isfile input source =
      if source = fileUploadS then pdfS else emailS := by
  have hp4j : p4JsonCheck input = false := by
    simp [p4JsonCheck, hjson₂]
  have hp4e : p4EmailCheck input = false := by
    simp [p4EmailCheck, hind]
  by_cases hs : source = fileUploadS
  · subst hs
    rw [if_pos rfl]
    have e₁ : endsWith (lowerL fileUploadS) extPdfS = false := by decide
    have e₂ : endsWith (lowerL fileUploadS) extJsonS = false := by decide
    have e₃ : endsWith (lowerL fileUploadS) extEmlS = false := by decide
    have e₄ : endsWith (lowerL fileUploadS) extTxtS = false := by decide
    have e₅ : endsWith (lowerL fileUploadS) extEmailS = false := by decide
    have s₁ : containsSub (lowerL fileUploadS) subEmailS = false := by decide
    have s₂ : containsSub (lowerL fileUploadS) subJsonS = false := by decide
    have s₃ : containsSub (lowerL fileUploadS) subApiS = false := by decide
    simp [detectFormat, eqL, hsig, hb64, hjson, e₁, e₂, e₃, e₄, e₅,
      s₁, s₂, s₃, hfile, hp4j, hp4e]
  · rw [if_neg hs]
    have hnac : ¬ source = apiCallS := by
      intro he
      rw [he] at hsap
      exact absurd hsap (by decide)
    have hnji : ¬ source = jsonInputS := by
      intro he
      rw [he] at hsjs
      exact absurd hsjs (by decide)
    simp [detectFormat, eqL, hs, hextp, hextj, hexte, hextt, hextm,
      hsem, hsjs, hsap, hfile, hp4j, hp4e, hnac, hnji]

/-- Claim C1 witness: a signal-free input under a neutral hint defaults to
Email, by the amended rule. -/
theorem c1_witness :
    detectFormat (fun _ => false) "hello".toList "watch".toList = emailS := by
  have h := c1_default_format (fun _ => false) "hello".toList "watch".toList
    (by decide) (by decide) (by decide) (by decide) (by decide) rfl rfl
    (by decide) (by decide) (by decide) (by decide) (by decide) (by decide)
    rfl
  rw [h]
  exact if_neg (by decide)

/-! Shared helper lemmas for the nested-order totals claim. -/

theorem noPricing_ne_item_msg (s : String) :
    ¬ ("Item " ++ s = noPricingMsg) := by
  intro h
  have h₂ : ("Item " ++ s).data = noPricingMsg.data := by rw [h]
  have h₃ : ("Item " : String).data ++ s.data = noPricingMsg.data := h₂
  injection h₃ with h₄ _
  exact absurd h₄ (by decide)

theorem noPricing_ne_processing_msg (e : PyErr) :
    ¬ (processingErrorMsg e = noPricingMsg) := by
  intro h
  have h₂ : ("Processing error: " ++ pyErrMsg e).data = noPricingMsg.data := by
    rw [← h]
    rfl
  have h₃ : ("Processing error: " : String).data ++ (pyErrMsg e).data =
      noPricingMsg.data := h₂
  injection h₃ with h₄ _
  exact absurd h₄ (by decide)

theorem norItemAnoms_mem (items : List JValue) :
    ∀ (i : Nat) (m : String), m ∈ norItemAnoms items i →
    ∃ s, m = "Item " ++ s := by
  induction items with
  | nil => intro i m hm; simp [norItemAnoms] at hm
  | cons x rest ih =>
    intro i m hm
    cases x with
    | obj io => exact ih (i + 1) m hm
    | null =>
      rcases List.mem_cons.mp hm with rfl | hm₂
      · exact ⟨toString i ++ " is not a valid object", by rw [String.append_assoc]⟩
      · exact ih (i + 1) m hm₂
    | bool b =>
      rcases List.mem_cons.mp hm with rfl | hm₂
      · exact ⟨toString i ++ " is not a valid object", by rw [String.append_assoc]⟩
      · exact ih (i + 1) m hm₂
    | int n =>
      rcases List.mem_cons.mp hm with rfl | hm₂
      · exact ⟨toString i ++ " is not a valid object", by rw [String.append_assoc]⟩
      · exact ih (i + 1) m hm₂
    | float q =>
      rcases List.mem_cons.mp hm with rfl | hm₂
      · exact ⟨toString i ++ " is not a valid object", by rw [String.append_assoc]⟩
      · exact ih (i + 1) m hm₂
    | str s =>
      rcases List.mem_cons.mp hm with rfl | hm₂
      · exact ⟨toString i ++ " is not a valid object", by rw [String.append_assoc]⟩
      · exact ih (i + 1) m hm₂
    | arr xs =>
      rcases List.mem_cons.mp hm with rfl | hm₂
      · exact ⟨toString i ++ " is not a valid object", by rw [String.append_assoc]⟩
      · exact ih (i + 1) m hm₂

theorem noPricing_not_mem_norItemAnoms (items : List JValue) (i : Nat) :
    noPricingMsg ∉ norItemAnoms items i := by
  intro hm
  obtain ⟨s, hs⟩ := norItemAnoms_mem items i noPricingMsg hm
  exact noPricing_ne_item_msg s hs.symm

/-- pyFloat and numQ agree on numbers. -/
theorem pyFloat_numQ (v : JValue) (h : isNumber v = true) (q : ℚ) :
    pyFloat v = .ok q ↔ numQ v = some q := by
  cases v <;> simp_all [isNumber, pyFloat, numQ]

theorem qSum_cons (a : ℚ) (l : List ℚ) : qSum (a :: l) = a + qSum l := by
  simp [qSum, qAdd_eq]

theorem nor_items_loop_ok :
    ∀ (items : List JValue) (i : Nat) (anoms : List String)
      (acc : List Rec) (total : ℚ) (processed : List Rec) (total' : ℚ)
      (anoms' : List String),
    nor_items_loop items i anoms acc total = .ok (processed, total', anoms') →
    total' = total + qSum (items.filterMap norItemTerm) ∧
    processed = acc.reverse ++ items.filterMap norProcItem ∧
    anoms' = anoms ++ norItemAnoms items i := by
  intro items
  induction items with
  | nil =>
    intro i anoms acc total processed total' anoms' h
    simp only [nor_items_loop, Except.ok.injEq, Prod.mk.injEq] at h
    obtain ⟨h₁, h₂, h₃⟩ := h
    subst h₁
    subst h₂
    subst h₃
    simp [qSum, norItemAnoms]
  | cons item rest ih =>
    intro i anoms acc total processed total' anoms' h
    cases item
    case obj io =>
      simp only [nor_items_loop] at h
      cases hup : dgetD io "unitPrice" .null
      case null =>
        rw [hup] at h
        obtain ⟨h₁, h₂, h₃⟩ := ih _ _ _ _ _ _ _ h
        refine ⟨?_, ?_, ?_⟩ <;>
          simp [h₁, h₂, h₃, norItemTerm, numQ, hup, norProcItem, norItemAnoms]
      case bool b =>
        rw [hup] at h
        simp only [isNumber, pyFloat] at h
        cases hq : pyInt (dgetD io "quantity" (.int 0)) with
        | error e => rw [hq] at h; simp at h
        | ok q =>
          rw [hq] at h
          obtain ⟨h₁, h₂, h₃⟩ := ih _ _ _ _ _ _ _ h
          refine ⟨?_, ?_, ?_⟩ <;>
            simp [h₁, h₂, h₃, norItemTerm, numQ, hup, hq, norProcItem,
              norItemAnoms, qSum_cons, qAdd_eq, add_assoc]
      case int n =>
        rw [hup] at h
        simp only [isNumber, pyFloat] at h
        cases hq : pyInt (dgetD io "quantity" (.int 0)) with
        | error e => rw [hq] at h; simp at h
        | ok q =>
          rw [hq] at h
          obtain ⟨h₁, h₂, h₃⟩ := ih _ _ _ _ _ _ _ h
          refine ⟨?_, ?_, ?_⟩ <;>
            simp [h₁, h₂, h₃, norItemTerm, numQ, hup, hq, norProcItem,
              norItemAnoms, qSum_cons, qAdd_eq, add_assoc]
      case float qf =>
        rw [hup] at h
        simp only [isNumber, pyFloat] at h
        cases hq : pyInt (dgetD io "quantity" (.int 0)) with
        | error e => rw [hq] at h; simp at h
        | ok q =>
          rw [hq] at h
          obtain ⟨h₁, h₂, h₃⟩ := ih _ _ _ _ _ _ _ h
          refine ⟨?_, ?_, ?_⟩ <;>
            simp [h₁, h₂, h₃, norItemTerm, numQ, hup, hq, norProcItem,
              norItemAnoms, qSum_cons, qAdd_eq, add_assoc]
      case str s =>
        rw [hup] at h
        simp only [isNumber] at h
        obtain ⟨h₁, h₂, h₃⟩ := ih _ _ _ _ _ _ _ h
        refine ⟨?_, ?_, ?_⟩ <;>
          simp [h₁, h₂, h₃, norItemTerm, numQ, hup, norProcItem, norItemAnoms]
      case arr xs =>
        rw [hup] at h
        simp only [isNumber] at h
        obtain ⟨h₁, h₂, h₃⟩ := ih _ _ _ _ _ _ _ h
        refine ⟨?_, ?_, ?_⟩ <;>
          simp [h₁, h₂, h₃, norItemTerm, numQ, hup, norProcItem, norItemAnoms]
      case obj d₂ =>
        rw [hup] at h
        simp only [isNumber] at h
        obtain ⟨h₁, h₂, h₃⟩ := ih _ _ _ _ _ _ _ h
        refine ⟨?_, ?_, ?_⟩ <;>
          simp [h₁, h₂, h₃, norItemTerm, numQ, hup, norProcItem, norItemAnoms]
    all_goals
      simp only [nor_items_loop] at h
      obtain ⟨h₁, h₂, h₃⟩ := ih _ _ _ _ _ _ _ h
      refine ⟨?_, ?_, ?_⟩ <;>
        simp [h₁, h₂, h₃, norItemTerm, norProcItem, norItemAnoms]

theorem calc_items_loop_ok :
    ∀ (items : List JValue) (total total' : ℚ),
    calc_items_loop items total = .ok total' →
    total' = total + qSum (items.filterMap calcItemTerm) := by
  intro items
  induction items with
  | nil =>
    intro total total' h
    simp only [calc_items_loop, Except.ok.injEq] at h
    subst h
    simp [qSum]
  | cons item rest ih =>
    intro total total' h
    cases item
    case obj io =>
      simp only [calc_items_loop] at h
      cases hup : calcUnitPrice io
      case null =>
        rw [hup] at h
        have h₁ := ih _ _ h
        simp [h₁, calcItemTerm, numQ, hup]
      case bool b =>
        rw [hup] at h
        simp only [isNumber, pyFloat] at h
        cases hq : pyInt (dgetD io "quantity" (.int 1)) with
        | error e => rw [hq] at h; simp at h
        | ok q =>
          rw [hq] at h
          have h₁ := ih _ _ h
          simp [h₁, calcItemTerm, numQ, hup, hq, qSum_cons, qAdd_eq, add_assoc]
      case int n =>
        rw [hup] at h
        simp only [isNumber, pyFloat] at h
        cases hq : pyInt (dgetD io "quantity" (.int 1)) with
        | error e => rw [hq] at h; simp at h
        | ok q =>
          rw [hq] at h
          have h₁ := ih _ _ h
          simp [h₁, calcItemTerm, numQ, hup, hq, qSum_cons, qAdd_eq, add_assoc]
      case float qf =>
        rw [hup] at h
        simp only [isNumber, pyFloat] at h
        cases hq : pyInt (dgetD io "quantity" (.int 1)) with
        | error e => rw [hq] at h; simp at h
        | ok q =>
          rw [hq] at h
          have h₁ := ih _ _ h
          simp [h₁, calcItemTerm, numQ, hup, hq, qSum_cons, qAdd_eq, add_assoc]
      case str s =>
        rw [hup] at h
        simp only [isNumber] at h
        have h₁ := ih _ _ h
        simp [h₁, calcItemTerm, numQ, hup]
      case arr xs =>
        rw [hup] at h
        simp only [isNumber] at h
        have h₁ := ih _ _ h
        simp [h₁, calcItemTerm, numQ, hup]
      case obj d₂ =>
        rw [hup] at h
        simp only [isNumber] at h
        have h₁ := ih _ _ h
        simp [h₁, calcItemTerm, numQ, hup]
    all_goals
      simp only [calc_items_loop] at h
      have h₁ := ih _ _ h
      simp [h₁, calcItemTerm]

theorem mem_ite_singleton (c : Prop) [Decidable c] (x m : String) :
    (x ∈ (if c then [m] else [])) ↔ (c ∧ x = m) := by
  split <;> simp_all

theorem norCustomerPair_snd (v : JValue) (m : String)
    (h : m ∈ (norCustomerPair v).2) :
    m = "Missing customer name in orderRequest.customer" ∨
    m = "Invalid customer format in orderRequest" := by
  cases v <;> simp_all [norCustomerPair]

theorem norItemsPair_snd (v : JValue) (m : String)
    (h : m ∈ (norItemsPair v).2) :
    m = "orderRequest.items is empty" ∨
    m = "orderRequest.items should be a list" := by
  cases v <;> simp_all [norItemsPair]

theorem noItemsPair_snd (v : JValue) (m : String)
    (h : m ∈ (noItemsPair v).2) : m = "Items should be a list" := by
  cases v <;> simp_all [noItemsPair]

/-- Characterization of successful nested_order_request bodies: the
total_amount field is the sum of the item terms, and the no-pricing
anomaly is present exactly when that sum is zero with a non-empty
processed-items list. -/
theorem nor_body_ok (d : JValue) (r : Rec) (a : List String)
    (h : process_nested_order_request_body d = .ok (r, a)) :
    dlookup r "total_amount" =
      some (.float (qSum ((norItems d).filterMap norItemTerm))) ∧
    (noPricingMsg ∈ a ↔
      (qSum ((norItems d).filterMap norItemTerm) = 0 ∧
       (norItems d).filterMap norProcItem ≠ [])) := by
  cases d
  case null => simp [process_nested_order_request_body] at h
  case bool b => simp [process_nested_order_request_body] at h
  case int n => simp [process_nested_order_request_body] at h
  case float q => simp [process_nested_order_request_body] at h
  case str s => simp [process_nested_order_request_body] at h
  case arr xs => simp [process_nested_order_request_body] at h
  case obj d₀ =>
    simp only [process_nested_order_request_body] at h
    cases hor : dgetD d₀ "orderRequest" (.obj [])
    case null => rw [hor] at h; simp at h
    case bool b => rw [hor] at h; simp at h
    case int n => rw [hor] at h; simp at h
    case float q => rw [hor] at h; simp at h
    case str s => rw [hor] at h; simp at h
    case arr xs => rw [hor] at h; simp at h
    case obj oro =>
      rw [hor] at h
      dsimp only at h
      cases hloop : nor_items_loop (norItemsPair (dgetD oro "items" (.arr []))).1
          0 ((if pyStr (dgetD oro "id" (.str "")) = ""
              then ["Missing orderRequest.id"] else []) ++
             (norCustomerPair (dgetD oro "customer" (.obj []))).2 ++
             (norItemsPair (dgetD oro "items" (.arr []))).2) [] 0 with
      | error ea => rw [hloop] at h; simp at h
      | ok t₃ =>
        obtain ⟨processed, total, anoms₃⟩ := t₃
        rw [hloop] at h
        simp only [Except.ok.injEq, Prod.mk.injEq] at h
        obtain ⟨hr, ha⟩ := h
        obtain ⟨hT, hP, hA⟩ := nor_items_loop_ok _ _ _ _ _ _ _ _ hloop
        rw [zero_add] at hT
        subst hr
        subst ha
        constructor
        · simp [dlookup, norItems, hor, hT]
        · subst hA
          subst hP
          subst hT
          simp only [norItems, hor, List.reverse_nil, List.nil_append,
            List.isEmpty_eq_true]
          by_cases hc : qSum (((norItemsPair (dgetD oro "items"
              (.arr []))).1).filterMap norItemTerm) = 0 ∧
              ((norItemsPair (dgetD oro "items" (.arr []))).1).filterMap
                norProcItem ≠ []
          · rcases hc with ⟨hc₁, hc₂⟩
            rw [if_pos ⟨hc₁, by simpa using hc₂⟩]
            simp [hc₁, hc₂]
          · rw [if_neg (by simpa using hc)]
            simp only [hc, iff_false]
            intro hmem
            rcases List.mem_append.mp hmem with hmem₂ | hmem₂
            · rcases List.mem_append.mp hmem₂ with hmem₃ | hmem₃
              · rcases List.mem_append.mp hmem₃ with hmem₄ | hmem₄
                · rw [mem_ite_singleton] at hmem₄
                  exact absurd hmem₄.2 (by decide)
                · rcases norCustomerPair_snd _ _ hmem₄ with he | he <;>
                    exact absurd he (by decide)
              · rcases norItemsPair_snd _ _ hmem₃ with he | he <;>
                  exact absurd he (by decide)
            · exact noPricing_not_mem_norItemAnoms _ _ hmem₂

theorem mem_ite_nil_singleton (c : Prop) [Decidable c] (x m : String) :
    (x ∈ (if c then ([] : List String) else [m])) ↔ (¬ c ∧ x = m) := by
  split <;> simp_all

/-- The nested_order body only ever accumulates its three fixed anomaly
messages, never the no-pricing one. -/
theorem no_body_anoms (d : JValue) :
    (∀ r a, process_nested_order_body d = .ok (r, a) → noPricingMsg ∉ a) ∧
    (∀ e a, process_nested_order_body d = .error (e, a) → noPricingMsg ∉ a) := by
  cases d
  case null => exact ⟨fun r a h => by simp [process_nested_order_body] at h,
    fun e a h => by
      simp [process_nested_order_body] at h
      simp [h]⟩
  case bool b => exact ⟨fun r a h => by simp [process_nested_order_body] at h,
    fun e a h => by
      simp [process_nested_order_body] at h
      simp [h]⟩
  case int n => exact ⟨fun r a h => by simp [process_nested_order_body] at h,
    fun e a h => by
      simp [process_nested_order_body] at h
      simp [h]⟩
  case float q => exact ⟨fun r a h => by simp [process_nested_order_body] at h,
    fun e a h => by
      simp [process_nested_order_body] at h
      simp [h]⟩
  case str s => exact ⟨fun r a h => by simp [process_nested_order_body] at h,
    fun e a h => by
      simp [process_nested_order_body] at h
      simp [h]⟩
  case arr xs => exact ⟨fun r a h => by simp [process_nested_order_body] at h,
    fun e a h => by
      simp [process_nested_order_body] at h
      simp [h]⟩
  case obj d₀ =>
    have main : ∀ res, process_nested_order_body (.obj d₀) = res →
        (∀ r a, res = .ok (r, a) → noPricingMsg ∉ a) ∧
        (∀ e a, res = .error (e, a) → noPricingMsg ∉ a) := by
      intro res hres
      simp only [process_nested_order_body] at hres
      cases hor : dgetD d₀ "order" (.obj [])
      case obj oo =>
        rw [hor] at hres
        dsimp only at hres
        have memfree : noPricingMsg ∉
            ((if pyStr (dgetD oo "id" (.str "")) = ""
              then ["Missing order.id"] else []) ++
             (if pyTruthy (match dgetD oo "customer" (.str "") with
                | .obj co => dgetD co "name" (.str "")
                | c => .str (pyStr c)) then []
              else ["Missing customer information"]) ++
             (noItemsPair (dgetD oo "items" (dgetD oo "products"
               (.arr [])))).2) := by
          intro hmem
          rcases List.mem_append.mp hmem with hmem₂ | hmem₂
          · rcases List.mem_append.mp hmem₂ with hmem₃ | hmem₃
            · rw [mem_ite_singleton] at hmem₃
              exact absurd hmem₃.2 (by decide)
            · rw [mem_ite_nil_singleton] at hmem₃
              exact absurd hmem₃.2 (by decide)
          · exact absurd (noItemsPair_snd _ _ hmem₂) (by decide)
        cases hf : pyFloat (dgetD oo "total" (dgetD oo "amount" (.float 0)))
        case error e₀ =>
          rw [hf] at hres
          dsimp only at hres
          subst hres
          exact ⟨fun r a h => by simp at h,
            fun e a h => by
              simp only [Except.error.injEq, Prod.mk.injEq] at h
              rw [← h.2]
              exact memfree⟩
        case ok t₀ =>
          rw [hf] at hres
          dsimp only at hres
          by_cases ht : t₀ = 0
          · rw [if_pos ht] at hres
            cases hc : calculate_total_from_items
                (noItemsPair (dgetD oo "items" (dgetD oo "products"
                  (.arr [])))).1 with
            | error e₀ =>
              rw [hc] at hres
              subst hres
              exact ⟨fun r a h => by simp at h,
                fun e a h => by
                  simp only [Except.error.injEq, Prod.mk.injEq] at h
                  rw [← h.2]
                  exact memfree⟩
            | ok tc =>
              rw [hc] at hres
              subst hres
              exact ⟨fun r a h => by
                  simp only [Except.ok.injEq, Prod.mk.injEq] at h
                  rw [← h.2]
                  exact memfree,
                fun e a h => by simp at h⟩
          · rw [if_neg ht] at hres
            subst hres
            exact ⟨fun r a h => by
                simp only [Except.ok.injEq, Prod.mk.injEq] at h
                rw [← h.2]
                exact memfree,
              fun e a h => by simp at h⟩
      all_goals
        rw [hor] at hres
        subst hres
        exact ⟨fun r a h => by simp at h,
          fun e a h => by
            simp only [Except.error.injEq, Prod.mk.injEq] at h
            rw [← h.2]
            simp⟩
    exact main _ rfl

/-- Characterization of successful nested_order bodies: the total is the
converted total/amount field when nonzero, else the recomputation from
items. -/
theorem no_body_total (d : JValue) (r : Rec) (a : List String)
    (h : process_nested_order_body d = .ok (r, a)) :
    ∃ q, dlookup r "total_amount" = some (.float q) ∧
      ((pyFloat (noTotalRaw d) = .ok q ∧ q ≠ 0) ∨
       calculate_total_from_items (noItems d) = .ok q) := by
  cases d
  case null => simp [process_nested_order_body] at h
  case bool b => simp [process_nested_order_body] at h
  case int n => simp [process_nested_order_body] at h
  case float q => simp [process_nested_order_body] at h
  case str s => simp [process_nested_order_body] at h
  case arr xs => simp [process_nested_order_body] at h
  case obj d₀ =>
    simp only [process_nested_order_body] at h
    cases hor : dgetD d₀ "order" (.obj [])
    case null => rw [hor] at h; simp at h
    case bool b => rw [hor] at h; simp at h
    case int n => rw [hor] at h; simp at h
    case float q => rw [hor] at h; simp at h
    case str s => rw [hor] at h; simp at h
    case arr xs => rw [hor] at h; simp at h
    case obj oo =>
      rw [hor] at h
      dsimp only at h
      cases hf : pyFloat (dgetD oo "total" (dgetD oo "amount" (.float 0))) with
      | error e₀ => rw [hf] at h; simp at h
      | ok t₀ =>
        rw [hf] at h
        dsimp only at h
        by_cases ht : t₀ = 0
        · rw [if_pos ht] at h
          cases hc : calculate_total_from_items
              (noItemsPair (dgetD oo "items" (dgetD oo "products"
                (.arr [])))).1 with
          | error e₀ => rw [hc] at h; simp at h
          | ok tc =>
            rw [hc] at h
            simp only [Except.ok.injEq, Prod.mk.injEq] at h
            refine ⟨tc, ?_, Or.inr ?_⟩
            · rw [← h.1]
              simp [dlookup]
            · rw [show noItems (.obj d₀) = (noItemsPair (dgetD oo "items"
                (dgetD oo "products" (.arr [])))).1 by simp [noItems, hor]]
              exact hc
        · rw [if_neg ht] at h
          simp only [Except.ok.injEq, Prod.mk.injEq] at h
          refine ⟨t₀, ?_, Or.inl ⟨?_, ht⟩⟩
          · rw [← h.1]
            simp [dlookup]
          · rw [show noTotalRaw (.obj d₀) = dgetD oo "total"
              (dgetD oo "amount" (.float 0)) by simp [noTotalRaw, hor]]
            exact hf

/-- Claim C3 (counterexample): a nested order with one item carrying no
pricing and no total field normalizes to total_amount 0.0 with an empty
anomaly list — the claimed anomaly is not appended by this strategy. -/
theorem c3_counterexample :
    process_nested_order (.obj [("order", .obj [("id", .str "1"),
      ("customer", .str "A"),
      ("items", .arr [.obj [("sku", .str "x")]])])]) =
    ([("order_id", .str "1"), ("customer_name", .str "A"),
      ("items", .arr [.obj [("sku", .str "x")]]),
      ("total_amount", .float 0)], []) ∧
    dlookup [("id", .str "1"), ("customer", .str "A"),
      ("items", .arr [.obj [("sku", .str "x")]])] "total" = none ∧
    dlookup [("id", .str "1"), ("customer", .str "A"),
      ("items", .arr [.obj [("sku", .str "x")]])] "amount" = none := by
  exact ⟨rfl, rfl, rfl⟩

/-- Claim C3 (amended): in the NestedOrderRequest strategy the total is
the sum of unit_price times the int()-truncated quantity over dict items
with a numeric unit price (quantity defaulting to 0), and the no-pricing
anomaly appears exactly when that sum is zero while processed items
exist; the NestedOrder strategy never appends that anomaly — its total
is the converted total/amount field when nonzero and otherwise the
recomputation from items, which likewise sums unit_price times the
truncated quantity (quantity defaulting to 1) over items whose
unitPrice/price/unit_price chain yields a number. -/
theorem c3_total_invariant :
    (∀ (d : JValue) (r : Rec) (a : List String),
      process_nested_order_request_body d = .ok (r, a) →
      dlookup r "total_amount" =
        some (.float (qSum ((norItems d).filterMap norItemTerm))) ∧
      (noPricingMsg ∈ a ↔
        (qSum ((norItems d).filterMap norItemTerm) = 0 ∧
         (norItems d).filterMap norProcItem ≠ []))) ∧
    (∀ d : JValue, noPricingMsg ∉ (process_nested_order d).2) ∧
    (∀ (d : JValue) (r : Rec) (a : List String),
      process_nested_order_body d = .ok (r, a) →
      ∃ q, dlookup r "total_amount" = some (.float q) ∧
        ((pyFloat (noTotalRaw d) = .ok q ∧ q ≠ 0) ∨
         calculate_total_from_items (noItems d) = .ok q)) ∧
    (∀ (items : List JValue) (q : ℚ),
      calculate_total_from_items items = .ok q →
      q = qSum (items.filterMap calcItemTerm)) := by
  refine ⟨nor_body_ok, ?_, no_body_total, ?_⟩
  · intro d
    unfold process_nested_order
    cases hres : process_nested_order_body d with
    | ok ra =>
      obtain ⟨r, a⟩ := ra
      exact (no_body_anoms d).1 r a hres
    | error ea =>
      obtain ⟨e, anoms⟩ := ea
      intro hmem
      rcases List.mem_append.mp hmem with hmem₂ | hmem₂
      · exact (no_body_anoms d).2 e anoms hres hmem₂
      · exact noPricing_ne_processing_msg e
          (List.mem_singleton.mp hmem₂).symm
    
  · intro items q h
    have h₂ := calc_items_loop_ok items 0 q h
    rw [h₂, zero_add]

/-- Claim C3 witness: a priced orderRequest item sums to 5 times 2, the
C3 theorem's characterization applies to it, and a nested order with an
explicit nonzero total passes it through. -/
theorem c3_witness :
    (process_nested_order_request_body (.obj [("orderRequest", .obj
      [("id", .str "1"), ("customer", .str "A"),
       ("items", .arr [.obj [("unitPrice", .int 5),
         ("quantity", .int 2)]])])])).isOk = true ∧
    (∀ r a, process_nested_order_request_body (.obj [("orderRequest", .obj
      [("id", .str "1"), ("customer", .str "A"),
       ("items", .arr [.obj [("unitPrice", .int 5),
         ("quantity", .int 2)]])])]) = .ok (r, a) →
      dlookup r "total_amount" = some (.float (mkRat 10 1))) ∧
    (∃ q, dlookup (process_nested_order (.obj [("order", .obj
        [("id", .str "1"), ("customer", .str "A"),
         ("total", .int 7)])])).1 "total_amount" = some (.float q) ∧
      ((pyFloat (noTotalRaw (.obj [("order", .obj
          [("id", .str "1"), ("customer", .str "A"),
           ("total", .int 7)])])) = .ok q ∧ q ≠ 0) ∨
       calculate_total_from_items (noItems (.obj [("order", .obj
          [("id", .str "1"), ("customer", .str "A"),
           ("total", .int 7)])])) = .ok q)) := by
  refine ⟨rfl, ?_, ?_⟩
  · intro r a h
    have h₂ := (c3_total_invariant.1 _ _ _ h).1
    rw [h₂]
    rfl
  · exact c3_total_invariant.2.2.1 _ _ _ rfl

/-! Shared helper lemmas for the canonical record-shape claim. -/

theorem dlookup_dset (r : Rec) (k : String) (v : JValue) (k₂ : String) :
    dlookup (dset r k v) k₂ = if k = k₂ then some v else dlookup r k₂ := by
  induction r with
  | nil =>
    by_cases h : k = k₂ <;> simp [dset, dlookup, h]
  | cons p rest ih =>
    obtain ⟨k₃, v₃⟩ := p
    by_cases h₃ : k₃ = k
    · subst h₃
      by_cases h : k₃ = k₂ <;> simp [dset, dlookup, h]
    · by_cases h : k₃ = k₂
      · subst h
        have : ¬ k = k₃ := fun he => h₃ he.symm
        simp [dset, dlookup, h₃, this, ih]
      · simp [dset, dlookup, h₃, h, ih]

theorem dkeys_dset_mem (r : Rec) (k : String) (v : JValue) (x : String) :
    x ∈ dkeys (dset r k v) ↔ x ∈ dkeys r ∨ x = k := by
  induction r with
  | nil => simp [dset, dkeys]
  | cons p rest ih =>
    obtain ⟨k₃, v₃⟩ := p
    by_cases h₃ : k₃ = k
    · subst h₃
      simp [dset, dkeys]
      tauto
    · simp only [dset, if_neg h₃, dkeys, List.map_cons, List.mem_cons] at ih ⊢
      rw [ih]
      tauto

theorem dlookup_none_of_not_mem (r : Rec) (k : String)
    (h : k ∉ dkeys r) : dlookup r k = none := by
  induction r with
  | nil => simp [dlookup]
  | cons p rest ih =>
    obtain ⟨k₃, v₃⟩ := p
    simp only [dkeys, List.map_cons, List.mem_cons, not_or] at h
    have : k₃ ≠ k := fun he => h.1 he.symm
    simp only [dlookup, if_neg this]
    exact ih (by simpa [dkeys] using h.2)

/-- Setting the overflow-count key preserves the record shape. -/
theorem RecShape_dset_count (r : Rec) (v : JValue)
    (h : RecShape r) : RecShape (dset r "additional_items_count" v) := by
  obtain ⟨h₁, h₂, h₃, h₄⟩ := h
  refine ⟨?_, ?_, ?_, ?_⟩
  · intro k hk
    rw [dkeys_dset_mem]
    exact Or.inl (h₁ k hk)
  · intro k hk
    rw [dkeys_dset_mem] at hk
    rcases hk with hk | rfl
    · exact h₂ k hk
    · simp [baseKeys, optionalKeys]
  · obtain ⟨s, hs⟩ := h₃
    refine ⟨s, ?_⟩
    rw [dlookup_dset, if_neg (by decide), hs]
  · obtain ⟨q, hq⟩ := h₄
    refine ⟨q, ?_⟩
    rw [dlookup_dset, if_neg (by decide), hq]

theorem RecShape_empty : RecShape create_empty_result := by
  refine ⟨by decide, by decide, ⟨"", rfl⟩, ⟨0, rfl⟩⟩

theorem nor_body_shape (d : JValue) (r : Rec) (a : List String)
    (h : process_nested_order_request_body d = .ok (r, a)) : RecShape r := by
  cases d
  case null => simp [process_nested_order_request_body] at h
  case bool b => simp [process_nested_order_request_body] at h
  case int n => simp [process_nested_order_request_body] at h
  case float q => simp [process_nested_order_request_body] at h
  case str s => simp [process_nested_order_request_body] at h
  case arr xs => simp [process_nested_order_request_body] at h
  case obj d₀ =>
    simp only [process_nested_order_request_body] at h
    cases hor : dgetD d₀ "orderRequest" (.obj [])
    case null => rw [hor] at h; simp at h
    case bool b => rw [hor] at h; simp at h
    case int n => rw [hor] at h; simp at h
    case float q => rw [hor] at h; simp at h
    case str s => rw [hor] at h; simp at h
    case arr xs => rw [hor] at h; simp at h
    case obj oro =>
      rw [hor] at h
      dsimp only at h
      cases hloop : nor_items_loop (norItemsPair (dgetD oro "items"
          (.arr []))).1 0
          ((if pyStr (dgetD oro "id" (.str "")) = ""
            then ["Missing orderRequest.id"] else []) ++
           (norCustomerPair (dgetD oro "customer" (.obj []))).2 ++
           (norItemsPair (dgetD oro "items" (.arr []))).2) [] 0 with
      | error ea => rw [hloop] at h; simp at h
      | ok t₃ =>
        obtain ⟨processed, total, anoms₃⟩ := t₃
        rw [hloop] at h
        simp only [Except.ok.injEq, Prod.mk.injEq] at h
        rw [← h.1]
        exact ⟨by simp [baseKeys, dkeys], by simp [baseKeys, optionalKeys, dkeys],
          ⟨_, rfl⟩, ⟨total, rfl⟩⟩

theorem no_body_shape (d : JValue) (r : Rec) (a : List String)
    (h : process_nested_order_body d = .ok (r, a)) : RecShape r := by
  cases d
  case null => simp [process_nested_order_body] at h
  case bool b => simp [process_nested_order_body] at h
  case int n => simp [process_nested_order_body] at h
  case float q => simp [process_nested_order_body] at h
  case str s => simp [process_nested_order_body] at h
  case arr xs => simp [process_nested_order_body] at h
  case obj d₀ =>
    simp only [process_nested_order_body] at h
    cases hor : dgetD d₀ "order" (.obj [])
    case null => rw [hor] at h; simp at h
    case bool b => rw [hor] at h; simp at h
    case int n => rw [hor] at h; simp at h
    case float q => rw [hor] at h; simp at h
    case str s => rw [hor] at h; simp at h
    case arr xs => rw [hor] at h; simp at h
    case obj oo =>
      rw [hor] at h
      dsimp only at h
      cases hf : pyFloat (dgetD oo "total" (dgetD oo "amount" (.float 0))) with
      | error e₀ => rw [hf] at h; simp at h
      | ok t₀ =>
        rw [hf] at h
        dsimp only at h
        by_cases ht : t₀ = 0
        · rw [if_pos ht] at h
          cases hc : calculate_total_from_items
              (noItemsPair (dgetD oo "items" (dgetD oo "products"
                (.arr [])))).1 with
          | error e₀ => rw [hc] at h; simp at h
          | ok tc =>
            rw [hc] at h
            simp only [Except.ok.injEq, Prod.mk.injEq] at h
            rw [← h.1]
            exact ⟨by simp [baseKeys, dkeys], by simp [baseKeys, optionalKeys, dkeys],
              ⟨_, rfl⟩, ⟨tc, rfl⟩⟩
        · rw [if_neg ht] at h
          simp only [Except.ok.injEq, Prod.mk.injEq] at h
          rw [← h.1]
          exact ⟨by simp [baseKeys, dkeys], by simp [baseKeys, optionalKeys, dkeys],
            ⟨_, rfl⟩, ⟨t₀, rfl⟩⟩

theorem nor_shape (d : JValue) :
    RecShape (process_nested_order_request d).1 := by
  unfold process_nested_order_request
  cases hres : process_nested_order_request_body d with
  | ok ra =>
    obtain ⟨r, a⟩ := ra
    exact nor_body_shape d r a hres
  | error ea => exact RecShape_empty

theorem no_shape (d : JValue) : RecShape (process_nested_order d).1 := by
  unfold process_nested_order
  cases hres : process_nested_order_body d with
  | ok ra =>
    obtain ⟨r, a⟩ := ra
    exact no_body_shape d r a hres
  | error ea => exact RecShape_empty

theorem flat_ok_shape (d : JValue) (r : Rec) (a : List String)
    (h : process_flat_order d = .ok (r, a)) : RecShape r := by
  cases d
  case null => simp [process_flat_order] at h
  case bool b => simp [process_flat_order] at h
  case int n => simp [process_flat_order] at h
  case float q => simp [process_flat_order] at h
  case str s => simp [process_flat_order] at h
  case arr xs => simp [process_flat_order] at h
  case obj d₀ =>
    obtain ⟨⟨t, _, hr⟩, _⟩ := process_flat_order_ok d₀ r a h
    rw [hr]
    exact ⟨by simp [baseKeys, dkeys], by simp [baseKeys, optionalKeys, dkeys],
      ⟨_, rfl⟩, ⟨t, rfl⟩⟩

theorem rfq_ok_shape (d : JValue) (r : Rec) (a : List String)
    (h : process_rfq_structure d = .ok (r, a)) : RecShape r := by
  cases d
  case null => simp [process_rfq_structure] at h
  case bool b => simp [process_rfq_structure] at h
  case int n => simp [process_rfq_structure] at h
  case float q => simp [process_rfq_structure] at h
  case str s => simp [process_rfq_structure] at h
  case arr xs => simp [process_rfq_structure] at h
  case obj d₀ =>
    simp only [process_rfq_structure] at h
    cases hrf : dgetD d₀ "rfq" (.obj d₀)
    case null => rw [hrf] at h; simp at h
    case bool b => rw [hrf] at h; simp at h
    case int n => rw [hrf] at h; simp at h
    case float q => rw [hrf] at h; simp at h
    case str s => rw [hrf] at h; simp at h
    case arr xs => rw [hrf] at h; simp at h
    case obj ro =>
      rw [hrf] at h
      simp only [Except.ok.injEq, Prod.mk.injEq] at h
      rw [← h.1]
      exact ⟨by simp [baseKeys, dkeys], by simp [baseKeys, optionalKeys, dkeys],
        ⟨_, rfl⟩, ⟨0, rfl⟩⟩

theorem custom_shape (d : JValue) :
    RecShape (process_custom_structure d).1 := by
  refine ⟨?_, ?_, ?_, ?_⟩ <;>
    simp [process_custom_structure, dkeys, baseKeys, optionalKeys, dlookup]

/-- Every successful process_json_structure result satisfies the record
shape, by strong induction for the array strategy's recursion. -/
theorem pjs_shape : ∀ (n : Nat) (v : JValue), sizeOf v ≤ n →
    ∀ (r : Rec) (a : List String),
    process_json_structure v = .ok (r, a) → RecShape r := by
  intro n
  induction n with
  | zero =>
    intro v hv
    have hpos : 0 < sizeOf v := by cases v <;> simp
    omega
  | succ n ih =>
    intro v hv r a h
    cases v
    case arr xs =>
      cases xs with
      | nil =>
        simp only [process_json_structure, process_array_structure,
          Except.ok.injEq, Prod.mk.injEq] at h
        rw [← h.1]
        exact RecShape_empty
      | cons x rest =>
        simp only [process_json_structure, process_array_structure] at h
        have hsz : sizeOf x ≤ n := by
          simp at hv
          omega
        cases hx : process_json_structure x with
        | error e => rw [hx] at h; simp at h
        | ok ra₀ =>
          obtain ⟨r₀, a₀⟩ := ra₀
          rw [hx] at h
          dsimp only at h
          by_cases hre : rest.isEmpty
          · rw [if_pos hre] at h
            simp only [Except.ok.injEq, Prod.mk.injEq] at h
            rw [← h.1]
            exact ih x hsz r₀ a₀ hx
          · rw [if_neg hre] at h
            simp only [Except.ok.injEq, Prod.mk.injEq] at h
            rw [← h.1]
            exact RecShape_dset_count r₀ _ (ih x hsz r₀ a₀ hx)
    all_goals
      simp only [process_json_structure] at h
      split at h
      case isTrue =>
        simp only [Except.ok.injEq] at h
        have h₂ := congrArg Prod.fst h
        dsimp at h₂
        rw [← h₂]
        exact nor_shape _
      case isFalse =>
        split at h
        case isTrue =>
          simp only [Except.ok.injEq] at h
          have h₂ := congrArg Prod.fst h
          dsimp at h₂
          rw [← h₂]
          exact no_shape _
        case isFalse =>
          split at h
          case isTrue => exact flat_ok_shape _ r a h
          case isFalse =>
            split at h
            case isTrue => exact rfq_ok_shape _ r a h
            case isFalse =>
              simp only [Except.ok.injEq] at h
              have h₂ := congrArg Prod.fst h
              dsimp at h₂
              rw [← h₂]
              exact custom_shape _

/-- Claim C7 (counterexample): on the exception path the returned record
carries the extra keys error and details, beyond the wire-visible field
names the claim allows. -/
theorem c7_counterexample :
    dkeys (process (fun _ => none) "nofile".toList) =
      ["error", "details", "order_id", "customer_name", "items",
       "total_amount"] ∧
    "error" ∉ baseKeys ++ optionalKeys ++ ["anomalies"] := by
  exact ⟨rfl, by decide⟩

/-- Claim C7 (amended): every record returned by JSONAgent.process has
the base keys order_id (a string), customer_name, items and total_amount
(a number); its keys stay within the base keys, the shape-specific
optional keys, the anomalies key, and — on the exception path — error and
details; and an anomalies key, when present, holds a non-empty string
array.  (customer_name and items are passed through unvalidated by some
strategies, so their types are not guaranteed.) -/
theorem c7_canonical_record_shape (readFile : List Char → Option (List Char))
    (input : List Char) :
    (∀ k ∈ baseKeys, k ∈ dkeys (process readFile input)) ∧
    (∀ k ∈ dkeys (process readFile input), k ∈ allowedKeys) ∧
    (∃ s, dlookup (process readFile input) "order_id" = some (.str s)) ∧
    (∃ q, dlookup (process readFile input) "total_amount" =
      some (.float q)) ∧
    (∀ xs, dlookup (process readFile input) "anomalies" = some xs →
      ∃ as, xs = .arr (List.map JValue.str as) ∧ as ≠ []) := by
  unfold process
  cases hload : (if startsWith input braceS then
      match jparse input with
      | some v => Except.ok v
      | none => Except.error (PyErr.jsonDecodeError "Expecting value")
    else
      match readFile input with
      | some content =>
        match jparse content with
        | some v => Except.ok v
        | none => Except.error (PyErr.jsonDecodeError "Expecting value")
      | none =>
        Except.error (PyErr.fileNotFoundError "No such file or directory"))
    with
  | error e =>
    refine ⟨?_, ?_, ⟨"", rfl⟩, ⟨0, rfl⟩, ?_⟩
    · intro k hk
      simp only [baseKeys, List.mem_cons, List.not_mem_nil, or_false] at hk
      rcases hk with rfl | rfl | rfl | rfl <;> simp [dkeys]
    · intro k hk
      simp only [dkeys] at hk
      simp only [List.map_cons, List.map_nil, List.mem_cons,
        List.not_mem_nil, or_false] at hk
      rcases hk with rfl | rfl | rfl | rfl | rfl | rfl <;>
        simp [allowedKeys, baseKeys, optionalKeys]
    · intro xs hxs
      simp [dlookup] at hxs
  | ok data =>
    dsimp only
    cases hres : process_json_structure data with
    | error e =>
      refine ⟨?_, ?_, ⟨"", rfl⟩, ⟨0, rfl⟩, ?_⟩
      · intro k hk
        simp only [baseKeys, List.mem_cons, List.not_mem_nil, or_false] at hk
        rcases hk with rfl | rfl | rfl | rfl <;> simp [dkeys]
      · intro k hk
        simp only [dkeys] at hk
        simp only [List.map_cons, List.map_nil, List.mem_cons,
          List.not_mem_nil, or_false] at hk
        rcases hk with rfl | rfl | rfl | rfl | rfl | rfl <;>
          simp [allowedKeys, baseKeys, optionalKeys]
      · intro xs hxs
        simp [dlookup] at hxs
    | ok ra =>
      obtain ⟨r, a⟩ := ra
      obtain ⟨hbase, hsub, hoid, htot⟩ :=
        pjs_shape (sizeOf data) data le_rfl r a hres
      dsimp only
      by_cases ha : a.isEmpty
      · rw [if_pos ha]
        refine ⟨hbase, ?_, hoid, htot, ?_⟩
        · intro k hk
          have := hsub k hk
          simp only [allowedKeys, List.mem_append] at this ⊢
          tauto
        · intro xs hxs
          have hnomem : "anomalies" ∉ dkeys r := by
            intro hmem
            have := hsub _ hmem
            simp [baseKeys, optionalKeys] at this
          rw [dlookup_none_of_not_mem r _ hnomem] at hxs
          exact absurd hxs (by simp)
      · rw [if_neg ha]
        refine ⟨?_, ?_, ?_, ?_, ?_⟩
        · intro k hk
          rw [dkeys_dset_mem]
          exact Or.inl (hbase k hk)
        · intro k hk
          rw [dkeys_dset_mem] at hk
          rcases hk with hk | rfl
          · have := hsub k hk
            simp only [allowedKeys, List.mem_append] at this ⊢
            tauto
          · simp [allowedKeys]
        · obtain ⟨s, hs⟩ := hoid
          exact ⟨s, by rw [dlookup_dset, if_neg (by decide), hs]⟩
        · obtain ⟨q, hq⟩ := htot
          exact ⟨q, by rw [dlookup_dset, if_neg (by decide), hq]⟩
        · intro xs hxs
          rw [dlookup_dset, if_pos rfl] at hxs
          refine ⟨a, by simpa using hxs.symm, ?_⟩
          intro hae
          rw [hae] at ha
          exact ha rfl

/-- Claim C7 witness: the shape conjuncts at concrete runs — a flat-order
JSON string with one anomaly carries an anomalies key holding it, and its
keys stay within the allowed set. -/
theorem c7_witness :
    ("order_id" ∈ dkeys (process (fun _ => none)
      "\x7b\"id\": 5\x7d".toList)) ∧
    (∃ as, JValue.arr (List.map JValue.str
          ["Invalid type for id", "Missing field: customer",
           "Missing field: products", "Missing field: total"]) =
        JValue.arr (List.map JValue.str as) ∧
      as ≠ []) := by
  constructor
  · exact (c7_canonical_record_shape (fun _ => none)
      "\x7b\"id\": 5\x7d".toList).1 "order_id" (by decide)
  · refine (c7_canonical_record_shape (fun _ => none)
      "\x7b\"id\": 5\x7d".toList).2.2.2.2 _ ?_
    rfl
